import Mathlib

/-!
Verification development for the cloud-native-toolkit git-client library.

JavaScript strings are modelled as `List Char` (`JStr`), numbers as `Nat`
(or `Rat` where fractional random delays matter), `undefined`-able values as
`Option`, and promise rejection as `Except`.  Effectful operations (HTTP
probes, local-git subprocess calls, polling a forge) are modelled by
explicit environment records supplying the result of the i-th call, and the
functions under verification return both their outcome and the trace of
observable actions they perform.
-/

deriving instance DecidableEq for Except

namespace GitClient

/-- JavaScript strings are sequences of characters. -/
abbrev JStr := List Char

/-- Convert a Lean string literal to the `JStr` model. -/
def jstr (s : String) : JStr := s.toList

/-- Substring containment: the semantics of `regex.test(text)` for a regular
expression that is a plain phrase without metacharacters. -/
def containsSubstr : JStr → JStr → Bool
  | [], pat => pat.isEmpty
  | c :: rest, pat => pat.isPrefixOf (c :: rest) || containsSubstr rest pat

/-- `[0-9]` character class. -/
def isDigitChar (c : Char) : Bool := '0' ≤ c && c ≤ '9'

/-- `[hms]` character class. -/
def isHms (c : Char) : Bool := c = 'h' || c = 'm' || c = 's'

/-- Greedy scan of a digit run: returns (digits, rest). -/
def scanDigits : JStr → JStr × JStr
  | [] => ([], [])
  | c :: rest =>
    if isDigitChar c then
      let (d, r) := scanDigits rest
      (c :: d, r)
    else ([], c :: rest)

/-- Match of the regex `([0-9]+[hms])` anchored at the head of `l`: a maximal
digit run of length at least one followed by a unit character.  Returns the
digits, the unit and the rest of the string.  (Backtracking cannot shorten
the digit run, because the character class `[hms]` never matches a digit.) -/
def timeGroupAt (l : JStr) : Option (JStr × Char × JStr) :=
  match scanDigits l with
  | ([], _) => none
  | (d :: ds, u :: rest2) => if isHms u then some (d :: ds, u, rest2) else none
  | (_ :: _, []) => none

/-- JavaScript `waitText.split(/([0-9]+[hms])/g)`: split at every match of the
regex, with the captured groups interleaved into the result.  The regex engine
scans left to right; on a failed match attempt it advances one character.
Structural recursion on an explicit bound (each step consumes at least one
character, so a bound of `l.length + 1` never runs out). -/
def splitTimeGroupsF (fuel : Nat) (l acc : JStr) : List JStr :=
  match fuel with
  | 0 => [acc.reverse ++ l]
  | fuel + 1 =>
    match timeGroupAt l with
    | some (digits, u, rest2) =>
      acc.reverse :: (digits ++ [u]) :: splitTimeGroupsF fuel rest2 []
    | none =>
      match l with
      | [] => [acc.reverse]
      | c :: rest => splitTimeGroupsF fuel rest (c :: acc)

/-- The split with a sufficient bound. -/
def splitTimeGroups (l : JStr) (acc : JStr) : List JStr :=
  splitTimeGroupsF (l.length + 1) l acc

/-- Model of JavaScript whitespace for `String.prototype.trim`. -/
def isJsWhitespace (c : Char) : Bool := c = ' ' || c = '\t' || c = '\n' || c = '\r'

/-- The filter `v => !!(v.trim())`: keeps pieces with a non-whitespace character. -/
def trimTruthy (l : JStr) : Bool := l.any (fun c => !isJsWhitespace c)

/-- First match of `([0-9]+)([hms])` anywhere in the piece (`RegExp.exec`). -/
def execTimeGroup : JStr → Option (JStr × Char)
  | [] => none
  | c :: rest =>
    match timeGroupAt (c :: rest) with
    | some (d, u, _) => some (d, u)
    | none => execTimeGroup rest

/-- `parseInt` on a digit string. -/
def parseDigits (l : JStr) : Nat :=
  l.foldl (fun n c => n * 10 + (c.toNat - '0'.toNat)) 0

/-- `timeInMilliseconds` from `string-util`: the `switch` falls through from
hours to minutes to seconds; a unit outside `[hms]` leaves the value as is. -/
def timeInMilliseconds (value : Nat) (units : Char) : Nat :=
  if units = 'h' then value * 60 * 60 * 1000
  else if units = 'm' then value * 60 * 1000
  else if units = 's' then value * 1000
  else value

/-- Body of `timeTextToMilliseconds` for a non-`undefined` argument: the empty
string is falsy and yields 0; otherwise the text is split on `([0-9]+[hms])`
groups, whitespace-only pieces are dropped, each remaining piece contributes
the value of its first `([0-9]+)([hms])` match (0 if none), and the
contributions are summed (`reduce` with `+` from 0). -/
def timeTextToMillisecondsStr (l : JStr) : Nat :=
  if l = [] then 0
  else
    ((splitTimeGroups l []).filter trimTruthy).foldl
      (fun acc piece =>
        acc + (match execTimeGroup piece with
               | some (d, u) => timeInMilliseconds (parseDigits d) u
               | none => 0)) 0

/-- `timeTextToMilliseconds` from `string-util`; the `Option` models that the
function is also called with `undefined`, which is falsy like the empty
string. -/
def timeTextToMilliseconds : Option JStr → Nat
  | none => 0
  | some l => timeTextToMillisecondsStr l

/-- Whether any position of `l` starts a `[0-9]+[hms]` group. -/
def containsTimeGroup : JStr → Bool
  | [] => false
  | c :: rest => (timeGroupAt (c :: rest)).isSome || containsTimeGroup rest

/-- `minutesInMilliseconds` from `string-util`. -/
def minutesInMilliseconds (minutes : Nat) : Nat := timeInMilliseconds minutes 'm'

/-- `GitHost` enumeration from `git.model`. -/
inductive GitHost
  | github
  | gitlab
  | ghe
  | gogs
  | bitbucket
  | gitea
  | azure
deriving DecidableEq

/-- `PullRequestStatus` enumeration from `git.api`. -/
inductive PullRequestStatus
  | notSet
  | active
  | abandoned
  | completed
  | conflicts
  | blocked
deriving DecidableEq

/-- `PullRequest` record from `git.api` (the fields the orchestrator reads). -/
structure PullRequest where
  pullNumber : Nat
  sourceBranch : JStr
  targetBranch : JStr
  status : PullRequestStatus
deriving DecidableEq

/-- The errors that flow through the client, as an inductive sum.
`responseError` models a superagent `ResponseError` (its `status`, its
`response.text` and its `response.header` entry for `Retry-After`);
`mergeConflict` models the `MergeConflict` class of `git.api` carrying
`pullNumber`; `conflictErrors` and `unresolvedConflicts` model the two
resolver-contract error classes of `git.api`; `invalidGitUrl` models the
`InvalidGitUrl` subclass of `GitError` in `git.model`; `generic` models a
plain JavaScript `Error` identified by its message.
`mergeBlockedForPullRequest` is imported by `git.base` and the GitHub
adapter from `git.model`, but its class definition is not part of the
sources.  Modelled from the spec: a distinct error kind carrying the
operation, the forge and the pull-request number rendered as a string, with
neither the numeric `status` property of a `ResponseError` nor the numeric
`pullNumber` property of a `MergeConflict`. -/
inductive GErr
  | responseError (status : Nat) (text : JStr) (retryAfter : Option Rat)
  | mergeConflict (pullNumber : Nat)
  | mergeBlockedForPullRequest (operation : JStr) (gitHost : GitHost) (pullNumber : JStr)
  | conflictErrors (errors : List JStr)
  | unresolvedConflicts (files : List JStr)
  | invalidGitUrl (context : JStr)
  | generic (message : JStr)
deriving DecidableEq

/-- `isResponseError` from `superagent-support`: truthiness of `error.status`. -/
def isResponseError : GErr → Bool
  | .responseError status _ _ => status ≠ 0
  | _ => false

/-- `error.status` (0 models an absent property). -/
def errStatus : GErr → Nat
  | .responseError status _ _ => status
  | _ => 0

/-- `error.response.text` (empty models an absent property). -/
def errText : GErr → JStr
  | .responseError _ text _ => text
  | _ => []

/-- The `Retry-After` entry of `error.response.header`. -/
def errRetryAfter : GErr → Option Rat
  | .responseError _ _ ra => ra
  | _ => none

/-- `isMergeConflict` from `git.api`: truthiness of `err.pullNumber`. -/
def isMergeConflict : GErr → Bool
  | .mergeConflict n => n ≠ 0
  | _ => false

/-- Discriminator for the `InvalidGitUrl` error class of `git.model`. -/
def isInvalidGitUrlError : GErr → Bool
  | .invalidGitUrl _ => true
  | _ => false

/-- One GitHub pull-request payload, restricted to the fields
`mapPullRequestStatus` inspects. -/
structure GithubPullRequestData where
  state : JStr
  merged : Bool
  mergeable : Bool
  mergeable_state : JStr
deriving DecidableEq

/-- `mapPullRequestStatus` from the GitHub adapter: `open` pull requests map
on `mergeable_state` (`dirty` to Conflicts, `blocked` to Blocked, anything
else to Active); `closed` ones map on `merged` (Completed or Abandoned); any
other state maps to NotSet. -/
def mapPullRequestStatus (pr : GithubPullRequestData) : PullRequestStatus :=
  if pr.state = jstr "open" then
    if pr.mergeable_state = jstr "dirty" then .conflicts
    else if pr.mergeable_state = jstr "blocked" then .blocked
    else .active
  else if pr.state = jstr "closed" then
    if pr.merged then .completed else .abandoned
  else .notSet

/-- An Octokit request error as observed by the GitHub adapter catch blocks:
its `response.status` and its `message`. -/
structure OctokitError where
  status : Nat
  message : JStr
deriving DecidableEq

/-- The catch block of the GitHub `mergePullRequestInternal`: a 405 response
whose message speaks of a required approving review becomes
`MergeBlockedForPullRequest`; any other 405 becomes `MergeConflict`
carrying the pull number; everything else is rethrown (modelled by
`generic` with the original message). -/
def mergePullRequestInternalCatch (gitHost : GitHost) (pullNumber : Nat)
    (err : OctokitError) : GErr :=
  if err.status = 405 then
    if containsSubstr err.message (jstr "approving review is required") then
      .mergeBlockedForPullRequest (jstr "mergePullRequest") gitHost (jstr (toString pullNumber))
    else .mergeConflict pullNumber
  else .generic err.message

/-- `isSecondaryRateLimitError` from the GitHub adapter: a `ResponseError`
with HTTP status 403 whose response text matches
`/.*secondary rate limit.*/g`, a case-sensitive substring test. -/
def isSecondaryRateLimitError (err : GErr) : Bool :=
  isResponseError err && errStatus err == 403 &&
    containsSubstr (errText err) (jstr "secondary rate limit")

/-- A retry evaluation result (`RetryResult` of `retry-with-delay`): whether
to retry and, optionally, the delay in milliseconds. -/
structure RetryDecision where
  retry : Bool
  delay : Option Rat
deriving DecidableEq

/-- `retryOnSecondaryRateLimit` inside `GithubCommon.exec`: on a secondary
rate-limit error wait `Retry-After` seconds when that header entry is
present and `30 + 20 * Math.random()` seconds otherwise, returning the
delay in milliseconds; any other error is not retried.  `random` stands for
the `Math.random()` sample. -/
def retryOnSecondaryRateLimit (random : Rat) (err : GErr) : RetryDecision :=
  if isSecondaryRateLimitError err then
    let retryAfter : Rat :=
      match errRetryAfter err with
      | some ra => ra
      | none => 30 + 20 * random
    ⟨true, some (retryAfter * 1000)⟩
  else ⟨false, none⟩

/-- Spec-side predicate, stated from the claim wording only: the response
body matches `/secondary rate limit/i`, i.e. contains the phrase ignoring
case. -/
def matchesSecondaryRateLimitCaseless (text : JStr) : Bool :=
  containsSubstr (text.map Char.toLower) (jstr "secondary rate limit")

/-- `AuthGitRepoConfig` from `git.model`: a parsed repository coordinate
with credentials.  `Option` fields model properties that may be absent from
the object. -/
structure AuthGitRepoConfig where
  protocol : JStr
  url : JStr
  host : JStr
  owner : JStr
  repo : Option JStr
  project : Option JStr
  branch : Option JStr
  username : JStr
  password : JStr
deriving DecidableEq

/-- The regex `([^/]+)/_git/(.*)` matched at the start of `l`: a non-empty
run of characters other than `/` immediately followed by `/_git/`; the rest
is the greedy second group.  Backtracking cannot shorten the first group,
because every shorter split would need a `/` inside the run. -/
def azureSplitAt (l : JStr) : Option (JStr × JStr) :=
  match l with
  | [] => none
  | c :: _ =>
    if c = '/' then none
    else
      let run := l.takeWhile (fun x => x ≠ '/')
      let rest := l.dropWhile (fun x => x ≠ '/')
      if (jstr "/_git/").isPrefixOf rest then some (run, rest.drop 6) else none

/-- Leftmost match of `([^/]+)/_git/(.*)`: `RegExp.exec` advances one
character after each failed match attempt. -/
def azureRegexExec : JStr → Option (JStr × JStr)
  | [] => none
  | c :: rest =>
    match azureSplitAt (c :: rest) with
    | some g => some g
    | none => azureRegexExec rest

/-- `updateAzureRepoConfig` from `api-from-config`: on `dev.azure.com` the
parsed `repo` field holds `project/_git/repo`; split it when the regex
matches, otherwise the whole remainder becomes the project and the repo is
cleared (org scope).  A falsy `repo` leaves the config untouched. -/
def updateAzureRepoConfig (config : AuthGitRepoConfig) : AuthGitRepoConfig :=
  match config.repo with
  | none => config
  | some r =>
    if r = [] then config
    else
      match azureRegexExec r with
      | some (project, repo) => { config with project := some project, repo := some repo }
      | none => { config with project := some r, repo := none }

/-- Result record of the detector (`RepoTypeResult`). -/
structure RepoTypeResult where
  type : GitHost
  config : AuthGitRepoConfig
deriving DecidableEq

/-- One HTTP probe issued by the detector: a GET checked for a response
header, or a GET checked for a non-empty body. -/
inductive ProbeCall
  | header (url : JStr) (headerName : JStr)
  | body (url : JStr)
deriving DecidableEq

/-- Oracle for probe outcomes: `hasHeader url name` and `hasBody url` model
the two probe helpers of `api-from-config`; a thrown request error is
already converted to `false` inside them. -/
structure ProbeEnv where
  hasHeader : JStr → JStr → Bool
  hasBody : JStr → Bool

/-- `getGitRepoType` from `api-from-config`: the fixed hosts `github.com`,
`bitbucket.org` and `dev.azure.com` decide immediately (Azure also splits
the coordinate); any other host is probed in order GHE (`api/v3` checked
for the `X-GitHub-Enterprise-Version` header), GitLab (`api/v4/projects`),
Gitea (`api/v1/settings/api`), Gogs (`api/v1/users/{username}`); exhausting
the probes throws a plain `Error`.  Returns the outcome together with the
trace of probes issued, in order. -/
def getGitRepoType (env : ProbeEnv) (config : AuthGitRepoConfig) :
    Except GErr RepoTypeResult × List ProbeCall :=
  if config.host = jstr "github.com" then (.ok ⟨.github, config⟩, [])
  else if config.host = jstr "bitbucket.org" then (.ok ⟨.bitbucket, config⟩, [])
  else if config.host = jstr "dev.azure.com" then
    (.ok ⟨.azure, updateAzureRepoConfig config⟩, [])
  else
    let base := config.protocol ++ jstr "://" ++ config.host
    let u1 := base ++ jstr "/api/v3"
    let h1 := jstr "X-GitHub-Enterprise-Version"
    let u2 := base ++ jstr "/api/v4/projects"
    let u3 := base ++ jstr "/api/v1/settings/api"
    let u4 := base ++ jstr "/api/v1/users/" ++ config.username
    if env.hasHeader u1 h1 then (.ok ⟨.ghe, config⟩, [.header u1 h1])
    else if env.hasBody u2 then (.ok ⟨.gitlab, config⟩, [.header u1 h1, .body u2])
    else if env.hasBody u3 then
      (.ok ⟨.gitea, config⟩, [.header u1 h1, .body u2, .body u3])
    else if env.hasBody u4 then
      (.ok ⟨.gogs, config⟩, [.header u1 h1, .body u2, .body u3, .body u4])
    else
      (.error (.generic (jstr "Unable to identify Git host type: " ++ config.url)),
        [.header u1 h1, .body u2, .body u3, .body u4])

/-- `GitUserConfig` from `git.api`. -/
structure GitUserConfig where
  name : JStr
  email : JStr
deriving DecidableEq

/-- The default committer identity built by `getUserConfig` in `git.base`. -/
def defaultUserConfig : GitUserConfig :=
  ⟨jstr "Cloud-Native Toolkit", jstr "cloudnativetoolkit@gmail.com"⟩

/-- `getUserConfig` from `git.base`: a supplied config with truthy `name`
and truthy `email` is kept; anything else (absent config, missing or empty
field) falls back to the default Cloud-Native Toolkit identity. -/
def getUserConfig : Option GitUserConfig → GitUserConfig
  | some u => if u.name ≠ [] ∧ u.email ≠ [] then u else defaultUserConfig
  | none => defaultUserConfig

/-- `LocalGitConfig` as read by the config step of `clone`: the optional
user config and the optional extra git-config record (an association
list). -/
structure LocalGitConfigLite where
  userConfig : Option GitUserConfig
  config : Option (List (JStr × JStr))
deriving DecidableEq

/-- The `addGitConfig` step of `clone` in `git.base`: with a user config it
sets `user.email` then `user.name` locally; afterwards it evaluates
`Object.keys(config)` to look for `http.sslCAInfo` — when `config` is
absent from the input this access throws a `TypeError` (undefined is not
convertible to an object), after the identity entries have already been
written.  Returns the `git config` entries written in order, and the
thrown error if any. -/
def addGitConfigRun (input : LocalGitConfigLite) : List (JStr × JStr) × Option GErr :=
  let userEntries :=
    match input.userConfig with
    | some u => [(jstr "user.email", u.email), (jstr "user.name", u.name)]
    | none => []
  match input.config with
  | none =>
    (userEntries, some (.generic (jstr "TypeError: Cannot convert undefined or null to object")))
  | some cfg =>
    match cfg.find? (fun kv => kv.1 = jstr "http.sslCAInfo") with
    | some kv => (userEntries ++ [(jstr "http.sslCAInfo", kv.2)], none)
    | none => (userEntries, none)

/-- The clone input `rebaseBranch` builds:
`{userConfig: getUserConfig(options.userConfig)}`, with no `config` entry. -/
def rebaseBranchCloneInput (userConfig : Option GitUserConfig) : LocalGitConfigLite :=
  ⟨some (getUserConfig userConfig), none⟩

/-- `StatusResult` of `simple-git`, restricted to the fields `rebaseBranch`
inspects. -/
structure StatusResult where
  not_added : List JStr
  deleted : List JStr
  conflicted : List JStr
  staged : List JStr
  ahead : Nat
  behind : Nat
deriving DecidableEq

/-- What a conflict resolver returns: the files it resolved and the
per-file errors. -/
structure ResolverResult where
  resolvedConflicts : List JStr
  conflictErrors : List JStr
deriving DecidableEq

/-- A merge resolver, modelled as a pure function of the conflicted files. -/
abbrev MergeResolver := List JStr → ResolverResult

/-- The default resolver of `rebaseBranch`: resolves nothing. -/
def defaultResolver : MergeResolver := fun _ => ⟨[], []⟩

/-- Observable actions of the rebase state machine. -/
inductive RAction
  | resolverCall (conflicted : List JStr)
  | add (file : JStr)
  | commit (file : JStr)
  | rebaseContinue (i : Nat)
  | rebaseSkip (i : Nat)
  | push
deriving DecidableEq

/-- Environment for one `rebaseBranch` run: outcomes of the external git
operations of `clone` (`git clone`, `cwd`, `branch`, `pull` — the
`addGitConfig` step that follows them is computed by `addGitConfigRun`, not
an oracle), of the checkout of the source branch, of the i-th `git status`,
of the i-th `git rebase --continue` (its output text, or a rejection), of
the i-th `git rebase --skip`, and of the final push. -/
structure RebaseEnv where
  clone : Except JStr Unit
  checkout : Except JStr Unit
  status : Nat → StatusResult
  rebaseContinue : Nat → Except JStr JStr
  rebaseSkip : Nat → Except JStr Unit
  push : Except JStr Unit

/-- The error the conflict branch of the rebase loop constructs and throws
inside its `try`: `ConflictErrors` when the resolver reported errors,
otherwise `UnresolvedConflictsError` when conflicted files are missing from
`resolvedConflicts`; `none` when every conflict was resolved. -/
def conflictBlockError (resolver : MergeResolver) (conflicted : List JStr) : Option GErr :=
  let r := resolver conflicted
  if r.conflictErrors ≠ [] then some (.conflictErrors r.conflictErrors)
  else
    let unresolved := conflicted.filter (fun c => ¬ r.resolvedConflicts.contains c)
    if unresolved ≠ [] then some (.unresolvedConflicts unresolved)
    else none

/-- The actions the conflict branch performs: it always calls the resolver;
when (and only when) neither contract error is thrown it stages and commits
each resolved file.  The `catch` wrapped around the branch only logs
whatever was thrown, so the branch always falls through to
`git rebase --continue`. -/
def conflictBlockActions (resolver : MergeResolver) (conflicted : List JStr) : List RAction :=
  match conflictBlockError resolver conflicted with
  | some _ => [.resolverCall conflicted]
  | none =>
    .resolverCall conflicted ::
      (resolver conflicted).resolvedConflicts.foldr
        (fun f acts => .add f :: .commit f :: acts) []

/-- Outcome of a `rebaseBranch` run. -/
inductive RebaseOutcome
  | ok (changed : Bool)
  | err (e : GErr)
  | outOfFuel
deriving DecidableEq

/-- The status-inspection loop of `rebaseBranch` followed by the post-loop
push decision, faithful to the code: read the status; a clean status (no
untracked, deleted, conflicted or staged files) leaves the loop, and that
same status decides between returning `false` (neither ahead nor behind,
nothing to push) and pushing the source branch with lease; otherwise the
conflict branch runs (its errors are caught and only logged) and
`git rebase --continue` follows, with output matching the no-changes
message triggering `git rebase --skip`; then the loop repeats.  `fuel`
bounds the number of iterations. -/
def rebaseLoop (env : RebaseEnv) (resolver : MergeResolver) :
    Nat → Nat → RebaseOutcome × List RAction
  | 0, _ => (.outOfFuel, [])
  | fuel + 1, i =>
    let st := env.status i
    if st.not_added = [] ∧ st.deleted = [] ∧ st.conflicted = [] ∧ st.staged = [] then
      if st.ahead = 0 ∧ st.behind = 0 then (.ok false, [])
      else
        match env.push with
        | .ok _ => (.ok true, [.push])
        | .error e => (.err (.generic e), [.push])
    else
      let cActs := if st.conflicted ≠ [] then conflictBlockActions resolver st.conflicted else []
      match env.rebaseContinue i with
      | .error e => (.err (.generic e), cActs ++ [.rebaseContinue i])
      | .ok out =>
        if containsSubstr out (jstr "No changes - did you forget to use \x27git add\x27") then
          match env.rebaseSkip i with
          | .error e => (.err (.generic e), cActs ++ [.rebaseContinue i, .rebaseSkip i])
          | .ok _ =>
            let (o, tr) := rebaseLoop env resolver fuel (i + 1)
            (o, cActs ++ [.rebaseContinue i, .rebaseSkip i] ++ tr)
        else
          let (o, tr) := rebaseLoop env resolver fuel (i + 1)
          (o, cActs ++ [.rebaseContinue i] ++ tr)

/-- `rebaseBranch` from `git.base`: clone the repo into a fresh workspace —
the external git operations first, then the `addGitConfig` step on the
input `{userConfig: getUserConfig(options.userConfig)}` built at the call
site, whose thrown error (if any) rejects the clone — then check out the
source branch, run `git rebase {target}` with its error caught and logged,
and run the status loop.  Clone or checkout failures propagate; the
`finally` only removes the workspace. -/
def rebaseBranch (env : RebaseEnv) (resolver : MergeResolver)
    (userConfig : Option GitUserConfig) (fuel : Nat) :
    RebaseOutcome × List RAction :=
  match env.clone with
  | .error e => (.err (.generic e), [])
  | .ok _ =>
    match (addGitConfigRun (rebaseBranchCloneInput userConfig)).2 with
    | some e => (.err e, [])
    | none =>
      match env.checkout with
      | .error e => (.err (.generic e), [])
      | .ok _ => rebaseLoop env resolver fuel 0

/-- Actions a retry handler performs (the orchestrator handler re-reads the
pull request and rebases the branch). -/
inductive HandlerAction
  | poll (i : Nat)
  | rebase (i : Nat)
deriving DecidableEq

/-- Observable actions of the `mergePullRequest` loop.  `rebase` is an
invocation of `rebaseBranch` by the loop itself; handler actions are
wrapped in `handler`. -/
inductive MergeAction
  | poll (i : Nat)
  | rebase (i : Nat)
  | sleepBlocked (ms : Nat)
  | mergeAttempt (i : Nat)
  | retrySleep (ms : Rat)
  | handler (a : HandlerAction)
deriving DecidableEq

/-- A retry handler: for the i-th loop iteration and an error, either a
retry decision together with the actions the handler performed, or the
handler rejection. -/
abbrev MergeRetryHandler := Nat → GErr → Except GErr (RetryDecision × List HandlerAction)

/-- `noRetry` is imported by `git.base` from `retry-with-delay` but its
definition is not part of the sources.  Modelled from the spec: the default
policy never retries. -/
def noRetry : MergeRetryHandler := fun _ _ => .ok (⟨false, none⟩, [])

/-- Environment for a `mergePullRequest` run: the i-th pull-request poll,
the i-th rebase performed by the loop itself, the i-th merge attempt, the
i-th rebase performed by the orchestrator retry handler, and the i-th
`Math.random()` sample of that handler. -/
structure MergeEnv where
  poll : Nat → PullRequest
  rebase : Nat → Except GErr Bool
  mergeInternal : Nat → Except GErr JStr
  handlerRebase : Nat → Except GErr Bool
  random : Nat → Rat

/-- Outcome of a `mergePullRequest` run: the promise resolves, rejects,
never settles (an exception escaped the promise executor), or the iteration
bound ran out. -/
inductive MergeOutcome
  | resolved (msg : JStr)
  | rejected (e : GErr)
  | hung
  | outOfFuel
deriving DecidableEq

/-- What the catch block of the `mergePullRequest` loop decides. -/
inductive CatchStep
  | continueAfterSleep (ms : Rat) (hacts : List HandlerAction)
  | continueNow (hacts : List HandlerAction)
  | reject (hacts : List HandlerAction)
  | hung
deriving DecidableEq

/-- The catch block of the `mergePullRequest` loop: ask the retry handler;
`retry` with a truthy `delay` sleeps and loops, `retry` without one loops
at once (neither branch of the code fires), no `retry` rejects with the
original error; a handler rejection escapes the executor. -/
def catchStep (handler : MergeRetryHandler) (i : Nat) (e : GErr) : CatchStep :=
  match handler i e with
  | .error _ => .hung
  | .ok (d, hacts) =>
    match d.delay with
    | some ms =>
      if d.retry && ms ≠ 0 then .continueAfterSleep ms hacts
      else if !d.retry then .reject hacts
      else .continueNow hacts
    | none => if !d.retry then .reject hacts else .continueNow hacts

/-- The `while (true)` loop of `mergePullRequest` in `git.base`, at
iteration `i` with accumulated blocked wait `totalWait` (milliseconds):
poll the pull request; on `Conflicts` rebase the branch and loop; on
`Blocked` while `totalWait` is below the `waitForBlocked` budget add five
minutes to the total, sleep them and loop; on `Blocked` with the budget
exhausted throw `MergeBlockedForPullRequest`; otherwise attempt the merge
and resolve with its message.  Every thrown error goes through the catch
block. -/
def mergeLoop (env : MergeEnv) (handler : MergeRetryHandler) (host : GitHost)
    (pullNumber : Nat) (waitMs : Nat) :
    Nat → Nat → Nat → MergeOutcome × List MergeAction
  | 0, _, _ => (.outOfFuel, [])
  | fuel + 1, i, totalWait =>
    let pr := env.poll i
    if pr.status = .conflicts then
      match env.rebase i with
      | .ok _ =>
        let (o, tr) := mergeLoop env handler host pullNumber waitMs fuel (i + 1) totalWait
        (o, .poll i :: .rebase i :: tr)
      | .error e =>
        match catchStep handler i e with
        | .hung => (.hung, [.poll i, .rebase i])
        | .reject hacts => (.rejected e, [.poll i, .rebase i] ++ hacts.map .handler)
        | .continueNow hacts =>
          let (o, tr) := mergeLoop env handler host pullNumber waitMs fuel (i + 1) totalWait
          (o, [.poll i, .rebase i] ++ hacts.map .handler ++ tr)
        | .continueAfterSleep ms hacts =>
          let (o, tr) := mergeLoop env handler host pullNumber waitMs fuel (i + 1) totalWait
          (o, [.poll i, .rebase i] ++ hacts.map .handler ++ [.retrySleep ms] ++ tr)
    else if pr.status = .blocked ∧ totalWait < waitMs then
      let (o, tr) :=
        mergeLoop env handler host pullNumber waitMs fuel (i + 1)
          (totalWait + minutesInMilliseconds 5)
      (o, .poll i :: .sleepBlocked (minutesInMilliseconds 5) :: tr)
    else if pr.status = .blocked then
      let e : GErr :=
        .mergeBlockedForPullRequest (jstr "updateAndMergePullRequest") host
          (jstr (toString pullNumber))
      match catchStep handler i e with
      | .hung => (.hung, [.poll i])
      | .reject hacts => (.rejected e, [.poll i] ++ hacts.map .handler)
      | .continueNow hacts =>
        let (o, tr) := mergeLoop env handler host pullNumber waitMs fuel (i + 1) totalWait
        (o, [.poll i] ++ hacts.map .handler ++ tr)
      | .continueAfterSleep ms hacts =>
        let (o, tr) := mergeLoop env handler host pullNumber waitMs fuel (i + 1) totalWait
        (o, [.poll i] ++ hacts.map .handler ++ [.retrySleep ms] ++ tr)
    else
      match env.mergeInternal i with
      | .ok msg => (.resolved msg, [.poll i, .mergeAttempt i])
      | .error e =>
        match catchStep handler i e with
        | .hung => (.hung, [.poll i, .mergeAttempt i])
        | .reject hacts => (.rejected e, [.poll i, .mergeAttempt i] ++ hacts.map .handler)
        | .continueNow hacts =>
          let (o, tr) := mergeLoop env handler host pullNumber waitMs fuel (i + 1) totalWait
          (o, [.poll i, .mergeAttempt i] ++ hacts.map .handler ++ tr)
        | .continueAfterSleep ms hacts =>
          let (o, tr) := mergeLoop env handler host pullNumber waitMs fuel (i + 1) totalWait
          (o, [.poll i, .mergeAttempt i] ++ hacts.map .handler ++ [.retrySleep ms] ++ tr)

/-- `mergePullRequest` from `git.base`: compute the blocked-wait budget from
`options.waitForBlocked` through `timeTextToMilliseconds` and run the loop
from iteration 0 with no accumulated wait. -/
def mergePullRequest (env : MergeEnv) (handler : MergeRetryHandler) (host : GitHost)
    (pullNumber : Nat) (waitForBlocked : Option JStr) (fuel : Nat) :
    MergeOutcome × List MergeAction :=
  mergeLoop env handler host pullNumber (timeTextToMilliseconds waitForBlocked) fuel 0 0

/-- `isMergeError` from `git.base`: a 405 `ResponseError` whose text says
the base branch was modified or the pull request is not mergeable, a 422
whose text reports a merge conflict between base and head, or any 409. -/
def isMergeError (error : GErr) : Bool :=
  if isResponseError error && errStatus error == 405 &&
      containsSubstr (errText error) (jstr "Base branch was modified") then true
  else if isResponseError error && errStatus error == 405 &&
      containsSubstr (errText error) (jstr "Pull Request is not mergeable") then true
  else if isResponseError error && errStatus error == 422 &&
      containsSubstr (errText error) (jstr "merge conflict between base and head") then true
  else if isResponseError error && errStatus error == 409 then true
  else false

/-- The `mergeConflictHandler` closure of `updateAndMergePullRequest`: on a
merge-related error (per `isMergeError`) or a `MergeConflict`, re-read the
pull request, rebase it with the resolver, and retry exactly when the
rebase pushed a change, after `1000 + Math.random() * 5000` milliseconds;
every other error is not retried.  A rebase rejection makes the handler
itself reject. -/
def mergeConflictHandler (env : MergeEnv) : MergeRetryHandler := fun i error =>
  if isMergeError error || isMergeConflict error then
    match env.handlerRebase i with
    | .ok retry => .ok (⟨retry, some (1000 + env.random i * 5000)⟩, [.poll i, .rebase i])
    | .error e => .error e
  else .ok (⟨false, none⟩, [])

/-- `updateAndMergePullRequest` from `git.base`, called without a
caller-supplied retry handler: `mergePullRequest` run under
`compositeRetryEvaluation([mergeConflictHandler, undefined])`, which
filters the undefined handler and collapses to `mergeConflictHandler`
itself. -/
def updateAndMergePullRequest (env : MergeEnv) (host : GitHost) (pullNumber : Nat)
    (waitForBlocked : Option JStr) (fuel : Nat) : MergeOutcome × List MergeAction :=
  mergePullRequest env (mergeConflictHandler env) host pullNumber waitForBlocked fuel


/-- `GitRepoConfig` as produced by `parseGitUrl`: the `Object.assign` in the
source omits falsy fields, modelled by `Option` being `none`. -/
structure GitRepoConfig where
  url : JStr
  protocol : JStr
  host : JStr
  owner : JStr
  repo : Option JStr
  branch : Option JStr
  username : Option JStr
  password : Option JStr
deriving DecidableEq

/-- Tail of the anchored match of
`(https{0,1})://([^/]*)/([^/]*)/{0,1}([^#]*)#{0,1}(.*)`: `r0` is the input
after the protocol spelling `proto` and the literal `://`.  The backtracking
collapses deterministically: the host group (greedy `[^/]*`) must be followed
by a literal `/` or the attempt fails; the optional slash, the remainder
(greedy `[^#]*`), the optional `#` and the greedy tail cannot fail.  Returns
the five capture groups. -/
def matchHttpTail (proto : JStr) (r0 : JStr) : Option (JStr × JStr × JStr × JStr × JStr) :=
  let host := r0.takeWhile (fun c => c ≠ '/')
  let r1 := r0.dropWhile (fun c => c ≠ '/')
  match r1 with
  | [] => none
  | _ :: r2 =>
    let owner := r2.takeWhile (fun c => c ≠ '/')
    let r3 := r2.dropWhile (fun c => c ≠ '/')
    let r4 := match r3 with
      | '/' :: t => t
      | t => t
    let rem := r4.takeWhile (fun c => c ≠ '#')
    let r5 := r4.dropWhile (fun c => c ≠ '#')
    let branch := match r5 with
      | '#' :: t => t
      | t => t
    some (proto, host, owner, rem, branch)

/-- Dispatch of the anchored match on the two spellings the greedy
`https{0,1}` accepts. -/
def matchHttpAt (l : JStr) : Option (JStr × JStr × JStr × JStr × JStr) :=
  if (jstr "https://").isPrefixOf l then matchHttpTail (jstr "https") (l.drop 8)
  else if (jstr "http://").isPrefixOf l then matchHttpTail (jstr "http") (l.drop 7)
  else none

/-- Leftmost match of the http pattern: `RegExp.exec` advances one character
after each failed match attempt. -/
def execHttpPattern : JStr → Option (JStr × JStr × JStr × JStr × JStr)
  | [] => none
  | c :: rest =>
    match matchHttpAt (c :: rest) with
    | some g => some g
    | none => execHttpPattern rest

/-- Split `l` at the last occurrence of `ch` whose suffix satisfies `p`: the
semantics of a greedy `(.*)` before a literal `ch`, where `p` states that the
remaining pattern can match the suffix. -/
def lastSplit (ch : Char) (p : JStr → Bool) : JStr → Option (JStr × JStr)
  | [] => none
  | c :: rest =>
    match lastSplit ch p rest with
    | some (before, after) => some (c :: before, after)
    | none => if c = ch && p rest then some ([], rest) else none

/-- Match of `(git@)(.*):(.*)/([^#]*)#{0,1}(.*)` anchored at the head.  The
greedy second group extends to the last `:` whose suffix still contains a
`/`; the greedy third group extends to the last `/`; the rest of the pattern
cannot fail.  Returns the five capture groups. -/
def matchGitAt (l : JStr) : Option (JStr × JStr × JStr × JStr × JStr) :=
  if (jstr "git@").isPrefixOf l then
    let r0 := l.drop 4
    match lastSplit ':' (fun after => after.contains '/') r0 with
    | none => none
    | some (hostPart, r1) =>
      match lastSplit '/' (fun _ => true) r1 with
      | none => none
      | some (ownerPart, r2) =>
        let rem := r2.takeWhile (fun c => c ≠ '#')
        let r5 := r2.dropWhile (fun c => c ≠ '#')
        let branch := match r5 with
          | '#' :: t => t
          | t => t
        some (jstr "git@", hostPart, ownerPart, rem, branch)
  else none

/-- Leftmost match of the `git@` pattern. -/
def execGitPattern : JStr → Option (JStr × JStr × JStr × JStr × JStr)
  | [] => none
  | c :: rest =>
    match matchGitAt (c :: rest) with
    | some g => some g
    | none => execGitPattern rest

/-- JavaScript `String.prototype.split` with a single-character separator. -/
def jsSplitChar (sep : Char) : JStr → List JStr
  | [] => [[]]
  | c :: rest =>
    let parts := jsSplitChar sep rest
    if c = sep then [] :: parts
    else (c :: parts.headD []) :: parts.tail

/-- `parseRepoHost` from `api-from-config`: a host group containing `@` is
split into credentials and host (`split` element 1); the credentials split
on `:` into username and password, password defaulting to the empty
string.  Returns (host, username, password) with empty strings for absent
credentials. -/
def parseRepoHost (host : JStr) : JStr × JStr × JStr :=
  if host.contains '@' then
    let results := jsSplitChar '@' host
    let h := results.getD 1 []
    let credentials := jsSplitChar ':' (results.getD 0 [])
    let username := credentials.getD 0 []
    let password := if credentials.length > 1 then credentials.getD 1 [] else []
    (h, username, password)
  else (host, [], [])

/-- `parseRepoName`: strip one trailing `.git`. -/
def parseRepoName (repo : JStr) : JStr :=
  if (jstr ".git").isSuffixOf repo then repo.take (repo.length - 4) else repo

/-- `buildGitUrl`: the canonical URL, with the repo segment only when the
repo is truthy. -/
def buildGitUrl (protocol host owner repo : JStr) : JStr :=
  if repo ≠ [] then
    protocol ++ jstr "://" ++ host ++ jstr "/" ++ owner ++ jstr "/" ++ repo
  else protocol ++ jstr "://" ++ host ++ jstr "/" ++ owner

/-- Assembly of the parse result from the five capture groups (`git@` has
already been coerced to `https` by the caller): split credentials from the
host group, strip `.git` from the remainder, keep the branch only when
non-empty, and omit every falsy field. -/
def assembleConfig (protocol hostGroup ownerGroup remainder branchGroup : JStr) :
    GitRepoConfig :=
  let hup := parseRepoHost hostGroup
  let host := hup.1
  let username := hup.2.1
  let password := hup.2.2
  let repo := parseRepoName remainder
  { url := buildGitUrl protocol host ownerGroup repo
    protocol := protocol
    host := host
    owner := ownerGroup
    repo := if repo ≠ [] then some repo else none
    branch := if branchGroup ≠ [] then some branchGroup else none
    username := if username ≠ [] then some username else none
    password := if password ≠ [] then some password else none }

/-- `parseGitUrl` from `api-from-config`: dispatch on the first four
characters to the `http` or `git@` pattern (any other prefix throws
`InvalidGitUrl`, as does a failed match; a successful match always yields
six entries, so the `results.length < 4` guard never fires on a match),
coerce the `git@` pseudo-protocol to `https`, and assemble the config. -/
def parseGitUrl (url : JStr) : Except GErr GitRepoConfig :=
  let key := url.take 4
  if key = jstr "http" then
    match execHttpPattern url with
    | none => .error (.invalidGitUrl url)
    | some (proto, hostGroup, ownerGroup, remainder, branchGroup) =>
      .ok (assembleConfig proto hostGroup ownerGroup remainder branchGroup)
  else if key = jstr "git@" then
    match execGitPattern url with
    | none => .error (.invalidGitUrl url)
    | some (_, hostGroup, ownerGroup, remainder, branchGroup) =>
      .ok (assembleConfig (jstr "https") hostGroup ownerGroup remainder branchGroup)
  else .error (.invalidGitUrl url)

/-- The rendered fragment segment `#fragment` of an accepted URL (empty when
there is no fragment). -/
def fragSegment : Option JStr → JStr
  | some f => jstr "#" ++ f
  | none => []

/-- The raw branch group the regex captures from the fragment. -/
def fragGroup : Option JStr → JStr
  | some f => f
  | none => []

/-- The username part of an optional credential pair (empty when absent). -/
def credsUser : Option (JStr × Option JStr) → JStr
  | some (user, _) => user
  | none => []

/-- The password part of an optional credential pair (empty when absent). -/
def credsPass : Option (JStr × Option JStr) → JStr
  | some (_, some pass) => pass
  | _ => []

/-- Spec-side description of an accepted URL of the http flavour (§6):
`http[s]://[user[:pass]@]host/owner/repo[.git][#fragment]`. -/
structure HttpUrlParts where
  secure : Bool
  creds : Option (JStr × Option JStr)
  host : JStr
  owner : JStr
  repo : JStr
  gitSuffix : Bool
  fragment : Option JStr

/-- The protocol string of the parts. -/
def HttpUrlParts.protocol (u : HttpUrlParts) : JStr :=
  if u.secure then jstr "https" else jstr "http"

/-- The credential segment `user[:pass]@` (empty when no credentials). -/
def HttpUrlParts.credsSegment (u : HttpUrlParts) : JStr :=
  match u.creds with
  | some (user, some pass) => user ++ jstr ":" ++ pass ++ jstr "@"
  | some (user, none) => user ++ jstr "@"
  | none => []

/-- Render the parts as the input URL. -/
def HttpUrlParts.render (u : HttpUrlParts) : JStr :=
  u.protocol ++ jstr "://" ++ u.credsSegment ++ u.host ++ jstr "/" ++ u.owner ++
    jstr "/" ++ u.repo ++ (if u.gitSuffix then jstr ".git" else []) ++
    fragSegment u.fragment

/-- The canonical URL of the parts: the input with credentials omitted, the
`.git` suffix stripped and the fragment dropped. -/
def HttpUrlParts.canonical (u : HttpUrlParts) : JStr :=
  u.protocol ++ jstr "://" ++ u.host ++ jstr "/" ++ u.owner ++ jstr "/" ++ u.repo

/-- Well-formedness of the http parts: the pieces stay inside the character
classes the grammar gives them (no `/` in credentials, host or owner, no
separator characters inside the credential fields, no `@` outside the
credential segment, no `#` ahead of the fragment position, a truthy repo
that does not itself end in `.git`). -/
def HttpUrlParts.wf (u : HttpUrlParts) : Prop :=
  (∀ up ∈ u.credsSegment, up ≠ '/') ∧
  (match u.creds with
   | some (user, some pass) =>
     ('@' ∉ user ∧ '@' ∉ pass) ∧ (':' ∉ user ∧ ':' ∉ pass)
   | some (user, none) => '@' ∉ user ∧ ':' ∉ user
   | none => True) ∧
  ('/' ∉ u.host ∧ '@' ∉ u.host) ∧
  ('/' ∉ u.owner) ∧
  (u.repo ≠ [] ∧ '#' ∉ u.repo ∧ ¬ (jstr ".git").isSuffixOf u.repo)

/-- Spec-side description of an accepted URL of the `git@` flavour (§6):
`git@host:owner/repo[.git][#fragment]`. -/
structure GitUrlParts where
  host : JStr
  owner : JStr
  repo : JStr
  gitSuffix : Bool
  fragment : Option JStr

/-- Render the parts as the input URL. -/
def GitUrlParts.render (u : GitUrlParts) : JStr :=
  jstr "git@" ++ u.host ++ jstr ":" ++ u.owner ++ jstr "/" ++ u.repo ++
    (if u.gitSuffix then jstr ".git" else []) ++ fragSegment u.fragment

/-- The canonical URL of the parts: protocol coerced to `https`, the `:`
separator replaced by `/`, the `.git` suffix stripped and the fragment
dropped. -/
def GitUrlParts.canonical (u : GitUrlParts) : JStr :=
  jstr "https://" ++ u.host ++ jstr "/" ++ u.owner ++ jstr "/" ++ u.repo

/-- Well-formedness of the `git@` parts. -/
def GitUrlParts.wf (u : GitUrlParts) : Prop :=
  ('@' ∉ u.host ∧ '/' ∉ u.host) ∧
  ('/' ∉ u.owner ∧ ':' ∉ u.owner ∧ '#' ∉ u.owner) ∧
  (u.repo ≠ [] ∧ '/' ∉ u.repo ∧ ':' ∉ u.repo ∧ '#' ∉ u.repo ∧
    ¬ (jstr ".git").isSuffixOf u.repo) ∧
  (match u.fragment with
   | some f => '/' ∉ f ∧ ':' ∉ f
   | none => True)

/-- Rebase environment in which every external git operation succeeds, with
one conflicted file on every status read. -/
def rebaseEnvGitOk : RebaseEnv where
  clone := .ok ()
  checkout := .ok ()
  status := fun _ => ⟨[], [], [jstr "file.txt"], [], 1, 0⟩
  rebaseContinue := fun _ => .ok (jstr "Applying: change")
  rebaseSkip := fun _ => .ok ()
  push := .ok ()

/-- Merge environment whose first poll reports Conflicts and whose second
reports Active, with every git operation succeeding. -/
def mergeEnvConflictsOnce : MergeEnv where
  poll := fun i =>
    if i = 0 then ⟨1, jstr "src", jstr "tgt", .conflicts⟩
    else ⟨1, jstr "src", jstr "tgt", .active⟩
  rebase := fun _ => .ok true
  mergeInternal := fun _ => .ok (jstr "merged")
  handlerRebase := fun _ => .ok true
  random := fun _ => 0

/-- Merge environment whose polls always report Blocked. -/
def mergeEnvBlocked : MergeEnv where
  poll := fun _ => ⟨9, jstr "src", jstr "tgt", .blocked⟩
  rebase := fun _ => .ok true
  mergeInternal := fun _ => .ok (jstr "merged")
  handlerRebase := fun _ => .ok true
  random := fun _ => 0

theorem scanDigits_rest_length (l : JStr) : (scanDigits l).2.length ≤ l.length := by
  induction l with
  | nil => simp [scanDigits]
  | cons c rest ih =>
    simp only [scanDigits]
    by_cases h : isDigitChar c
    · simp only [h, if_pos]
      exact Nat.le_succ_of_le ih
    · simp [h]

theorem timeGroupAt_rest_length {l : JStr} {d : JStr} {u : Char} {r : JStr}
    (h : timeGroupAt l = some (d, u, r)) : r.length < l.length := by
  have hrest := scanDigits_rest_length l
  unfold timeGroupAt at h
  split at h
  · exact absurd h (by simp)
  · rename_i d0 ds u' rest2 heq
    split at h
    · have hr : r = rest2 := by
        injection h with h1
        injection h1 with h2 h3
        injection h3 with h4 h5
        exact h5.symm
      rw [heq] at hrest
      subst hr
      exact Nat.lt_of_lt_of_le (Nat.lt_succ_self _) hrest
    · exact absurd h (by simp)
  · exact absurd h (by simp)

theorem splitTimeGroupsF_succ (fuel : Nat) (l acc : JStr) :
    splitTimeGroupsF (fuel + 1) l acc =
      match timeGroupAt l with
      | some (digits, u, rest2) =>
        acc.reverse :: (digits ++ [u]) :: splitTimeGroupsF fuel rest2 []
      | none =>
        match l with
        | [] => [acc.reverse]
        | c :: rest => splitTimeGroupsF fuel rest (c :: acc) := rfl

theorem splitTimeGroupsF_congr :
    ∀ fuel₁ fuel₂ l acc, l.length < fuel₁ → l.length < fuel₂ →
      splitTimeGroupsF fuel₁ l acc = splitTimeGroupsF fuel₂ l acc := by
  intro fuel₁
  induction fuel₁ with
  | zero => intro fuel₂ l acc h1; exact absurd h1 (Nat.not_lt_zero _)
  | succ f1 ih =>
    intro fuel₂ l acc h1 h2
    cases fuel₂ with
    | zero => exact absurd h2 (Nat.not_lt_zero _)
    | succ f2 =>
      simp only [splitTimeGroupsF]
      rcases hg : timeGroupAt l with _ | ⟨digits, u, rest2⟩
      · cases l with
        | nil => rfl
        | cons c rest =>
          exact ih f2 rest (c :: acc)
            (Nat.lt_of_succ_lt_succ h1) (Nat.lt_of_succ_lt_succ h2)
      · have hlen := timeGroupAt_rest_length hg
        simp only
        rw [ih f2 rest2 [] (Nat.lt_of_lt_of_le hlen (Nat.lt_succ_iff.mp h1))
          (Nat.lt_of_lt_of_le hlen (Nat.lt_succ_iff.mp h2))]

theorem splitTimeGroups_nil (acc : JStr) : splitTimeGroups [] acc = [acc.reverse] := rfl

theorem splitTimeGroups_cons_none {c : Char} {rest : JStr} (acc : JStr)
    (h : timeGroupAt (c :: rest) = none) :
    splitTimeGroups (c :: rest) acc = splitTimeGroups rest (c :: acc) := by
  unfold splitTimeGroups
  simp only [List.length_cons, splitTimeGroupsF, h]

theorem splitTimeGroups_cons_some {l digits : JStr} {u : Char} {rest2 : JStr} (acc : JStr)
    (h : timeGroupAt l = some (digits, u, rest2)) :
    splitTimeGroups l acc = acc.reverse :: (digits ++ [u]) :: splitTimeGroups rest2 [] := by
  unfold splitTimeGroups
  conv_lhs => rw [splitTimeGroupsF_succ]
  simp only [h]
  have hlen := timeGroupAt_rest_length h
  rw [splitTimeGroupsF_congr l.length (rest2.length + 1) rest2 [] hlen (Nat.lt_succ_self _)]

theorem splitTimeGroups_of_no_group {l : JStr} (acc : JStr)
    (h : containsTimeGroup l = false) :
    splitTimeGroups l acc = [acc.reverse ++ l] := by
  induction l generalizing acc with
  | nil => simp [splitTimeGroups_nil]
  | cons c rest ih =>
    have hgrp : timeGroupAt (c :: rest) = none := by
      rcases hg : timeGroupAt (c :: rest) with _ | v

      · rfl
      · rw [containsTimeGroup, hg] at h
        simp at h
    have hrest : containsTimeGroup rest = false := by
      rw [containsTimeGroup, hgrp] at h
      simpa using h
    rw [splitTimeGroups_cons_none acc hgrp, ih (c :: acc) hrest]
    simp

theorem execTimeGroup_of_no_group {l : JStr} (h : containsTimeGroup l = false) :
    execTimeGroup l = none := by
  induction l with
  | nil => rfl
  | cons c rest ih =>
    have hgrp : timeGroupAt (c :: rest) = none := by
      rcases hg : timeGroupAt (c :: rest) with _ | v
      · rfl
      · rw [containsTimeGroup, hg] at h
        simp at h
    have hrest : containsTimeGroup rest = false := by
      rw [containsTimeGroup, hgrp] at h
      simpa using h
    rw [execTimeGroup, hgrp]
    exact ih hrest

theorem timeTextToMillisecondsStr_of_no_group {l : JStr}
    (h : containsTimeGroup l = false) :
    timeTextToMillisecondsStr l = 0 := by
  unfold timeTextToMillisecondsStr
  by_cases hl : l = []
  · simp [hl]
  · rw [if_neg hl, splitTimeGroups_of_no_group [] h]
    simp only [List.reverse_nil, List.nil_append]
    by_cases ht : trimTruthy l
    · simp only [List.filter, ht, List.foldl]
      rw [execTimeGroup_of_no_group h]
      simp
    · simp [List.filter, ht, List.foldl]

/-- Claim C9: the time-text parser maps "1h" to 3600000 milliseconds, "10m"
to 600000, "30s" to 30000, "8h8m8s" and "8h 8m 8s" to 29288000, and the
empty string, undefined and "test value" all to 0; more generally, every
input containing no digits-followed-by-h/m/s group maps to 0. -/
theorem claim_C9_time_text_table :
    timeTextToMilliseconds (some (jstr "1h")) = 3600000 ∧
    timeTextToMilliseconds (some (jstr "10m")) = 600000 ∧
    timeTextToMilliseconds (some (jstr "30s")) = 30000 ∧
    timeTextToMilliseconds (some (jstr "8h8m8s")) = 29288000 ∧
    timeTextToMilliseconds (some (jstr "8h 8m 8s")) = 29288000 ∧
    timeTextToMilliseconds (some (jstr "")) = 0 ∧
    timeTextToMilliseconds none = 0 ∧
    timeTextToMilliseconds (some (jstr "test value")) = 0 ∧
    ∀ l : JStr, containsTimeGroup l = false → timeTextToMilliseconds (some l) = 0 := by
  refine ⟨by decide, by decide, by decide, by decide, by decide, by decide, rfl, by decide, ?_⟩
  intro l h
  exact timeTextToMillisecondsStr_of_no_group h

/-- Witness for C9: the general no-group clause applied at "test value". -/
theorem claim_C9_time_text_table_witness :
    containsTimeGroup (jstr "test value") = false ∧
    timeTextToMilliseconds (some (jstr "test value")) = 0 :=
  ⟨by decide,
    claim_C9_time_text_table.2.2.2.2.2.2.2.2 (jstr "test value") (by decide)⟩

/-- Claim C6: the GitHub adapter maps pull-request state per the table —
open with mergeable_state dirty to Conflicts, open with blocked to Blocked,
open otherwise to Active, closed with merged to Completed, closed otherwise
to Abandoned — and a failed merge with HTTP 405 yields
MergeBlockedForPullRequest when the error text contains "approving review
is required" and MergeConflict otherwise. -/
theorem claim_C6_github_status_mapping :
    (∀ pr : GithubPullRequestData, pr.state = jstr "open" →
      (pr.mergeable_state = jstr "dirty" →
        mapPullRequestStatus pr = .conflicts) ∧
      (pr.mergeable_state = jstr "blocked" →
        mapPullRequestStatus pr = .blocked) ∧
      (pr.mergeable_state ≠ jstr "dirty" → pr.mergeable_state ≠ jstr "blocked" →
        mapPullRequestStatus pr = .active)) ∧
    (∀ pr : GithubPullRequestData, pr.state = jstr "closed" →
      (pr.merged = true → mapPullRequestStatus pr = .completed) ∧
      (pr.merged = false → mapPullRequestStatus pr = .abandoned)) ∧
    (∀ (host : GitHost) (pullNumber : Nat) (err : OctokitError), err.status = 405 →
      (containsSubstr err.message (jstr "approving review is required") = true →
        mergePullRequestInternalCatch host pullNumber err =
          .mergeBlockedForPullRequest (jstr "mergePullRequest") host
            (jstr (toString pullNumber))) ∧
      (containsSubstr err.message (jstr "approving review is required") = false →
        mergePullRequestInternalCatch host pullNumber err = .mergeConflict pullNumber)) := by
  refine ⟨?_, ?_, ?_⟩
  · intro pr hst
    refine ⟨fun h1 => ?_, fun h1 => ?_, fun h1 h2 => ?_⟩
    · simp [mapPullRequestStatus, hst, h1]
    · have hne : ¬ (jstr "blocked" = jstr "dirty") := by decide
      simp [mapPullRequestStatus, hst, h1, hne]
    · simp [mapPullRequestStatus, hst, h1, h2]
  · intro pr hst
    have hne : ¬ (jstr "closed" = jstr "open") := by decide
    refine ⟨fun h1 => ?_, fun h1 => ?_⟩ <;>
      simp [mapPullRequestStatus, hst, hne, h1]
  · intro host pullNumber err h405
    refine ⟨fun h1 => ?_, fun h1 => ?_⟩ <;>
      simp [mergePullRequestInternalCatch, h405, h1]

/-- Witness for C6: the dirty-open mapping and the 405 review-required merge
error at concrete inputs. -/
theorem claim_C6_github_status_mapping_witness :
    mapPullRequestStatus ⟨jstr "open", false, false, jstr "dirty"⟩ = .conflicts ∧
    mergePullRequestInternalCatch .github 7
        ⟨405, jstr "At least 1 approving review is required"⟩ =
      .mergeBlockedForPullRequest (jstr "mergePullRequest") .github (jstr "7") :=
  ⟨(claim_C6_github_status_mapping.1 ⟨jstr "open", false, false, jstr "dirty"⟩ rfl).1 rfl,
    (claim_C6_github_status_mapping.2.2 .github 7
      ⟨405, jstr "At least 1 approving review is required"⟩ rfl).1 (by decide)⟩

/-- Claim C7 counterexample: the claim reads the phrase check as the
case-insensitive `/secondary rate limit/i`; the code tests
`/.*secondary rate limit.*/` case-sensitively, so a 403 whose body matches
the case-insensitive pattern but capitalises the phrase is not retried. -/
theorem claim_C7_rate_limit_counterexample :
    matchesSecondaryRateLimitCaseless
        (jstr "You have exceeded a Secondary Rate Limit") = true ∧
    isSecondaryRateLimitError
        (.responseError 403 (jstr "You have exceeded a Secondary Rate Limit") none) = false ∧
    retryOnSecondaryRateLimit 0
        (.responseError 403 (jstr "You have exceeded a Secondary Rate Limit") none) =
      ⟨false, none⟩ := by
  refine ⟨by decide, by decide, ?_⟩
  have h : isSecondaryRateLimitError
      (.responseError 403 (jstr "You have exceeded a Secondary Rate Limit") none) = false := by
    decide
  simp [retryOnSecondaryRateLimit, h]

/-- Claim C7 (amended): for errors run through the GitHub retry kernel, an
HTTP 403 whose response body contains the exact phrase "secondary rate
limit" (the check is case-sensitive) is retried, waiting `Retry-After`
seconds when that header entry is present and `30 + uniform(0,20)` seconds
otherwise; a 403 without the phrase is not retried. -/
theorem claim_C7_secondary_rate_limit (status : Nat) (text : JStr)
    (hdr : Option Rat) (random : Rat) :
    (status = 403 → containsSubstr text (jstr "secondary rate limit") = true →
      (∀ ra, hdr = some ra →
        retryOnSecondaryRateLimit random (.responseError status text hdr) =
          ⟨true, some (ra * 1000)⟩) ∧
      (hdr = none →
        retryOnSecondaryRateLimit random (.responseError status text hdr) =
          ⟨true, some ((30 + 20 * random) * 1000)⟩)) ∧
    (status = 403 → containsSubstr text (jstr "secondary rate limit") = false →
      retryOnSecondaryRateLimit random (.responseError status text hdr) = ⟨false, none⟩) := by
  constructor
  · intro h403 hmatch
    have hsec : isSecondaryRateLimitError (.responseError status text hdr) = true := by
      simp [isSecondaryRateLimitError, isResponseError, errStatus, errText, h403, hmatch]
    constructor
    · intro ra hra
      subst hra
      simp [retryOnSecondaryRateLimit, hsec, errRetryAfter]
    · intro hra
      subst hra
      simp [retryOnSecondaryRateLimit, hsec, errRetryAfter]
  · intro h403 hmatch
    have hsec : isSecondaryRateLimitError (.responseError status text hdr) = false := by
      simp [isSecondaryRateLimitError, isResponseError, errStatus, errText, h403, hmatch]
    simp [retryOnSecondaryRateLimit, hsec]

/-- Witness for C7: a 403 with the phrase and no Retry-After waits
`(30 + 20·random) · 1000` milliseconds (at random = 1/2: 40000 ms), and a
403 without the phrase is not retried. -/
theorem claim_C7_secondary_rate_limit_witness :
    retryOnSecondaryRateLimit (1/2)
        (.responseError 403 (jstr "You have exceeded a secondary rate limit") none) =
      ⟨true, some 40000⟩ ∧
    retryOnSecondaryRateLimit (1/2)
        (.responseError 403 (jstr "Forbidden") none) = ⟨false, none⟩ := by
  constructor
  · have h := ((claim_C7_secondary_rate_limit 403
      (jstr "You have exceeded a secondary rate limit") none (1/2)).1 rfl (by decide)).2 rfl
    rw [h]
    norm_num
  · exact (claim_C7_secondary_rate_limit 403 (jstr "Forbidden") none (1/2)).2 rfl (by decide)

/-- Claim C4: for the hosts github.com, bitbucket.org and dev.azure.com the
detector returns github, bitbucket and azure without issuing a probe (with
the Azure project/repo split applied); for any other host it probes, in
exact order, api/v3 (GitHub-Enterprise header check), api/v4/projects
(GitLab), api/v1/settings/api (Gitea) and api/v1/users/{username} (Gogs),
and the first successful probe determines the kind. -/
theorem claim_C4_forge_detector (env : ProbeEnv) (config : AuthGitRepoConfig) :
    (config.host = jstr "github.com" →
      getGitRepoType env config = (.ok ⟨.github, config⟩, [])) ∧
    (config.host = jstr "bitbucket.org" →
      getGitRepoType env config = (.ok ⟨.bitbucket, config⟩, [])) ∧
    (config.host = jstr "dev.azure.com" →
      getGitRepoType env config = (.ok ⟨.azure, updateAzureRepoConfig config⟩, [])) ∧
    (config.host ≠ jstr "github.com" → config.host ≠ jstr "bitbucket.org" →
      config.host ≠ jstr "dev.azure.com" →
      (env.hasHeader (config.protocol ++ jstr "://" ++ config.host ++ jstr "/api/v3")
          (jstr "X-GitHub-Enterprise-Version") = true →
        getGitRepoType env config = (.ok ⟨.ghe, config⟩,
          [.header (config.protocol ++ jstr "://" ++ config.host ++ jstr "/api/v3")
            (jstr "X-GitHub-Enterprise-Version")])) ∧
      (env.hasHeader (config.protocol ++ jstr "://" ++ config.host ++ jstr "/api/v3")
          (jstr "X-GitHub-Enterprise-Version") = false →
        env.hasBody (config.protocol ++ jstr "://" ++ config.host ++ jstr "/api/v4/projects") = true →
        getGitRepoType env config = (.ok ⟨.gitlab, config⟩,
          [.header (config.protocol ++ jstr "://" ++ config.host ++ jstr "/api/v3")
            (jstr "X-GitHub-Enterprise-Version"),
           .body (config.protocol ++ jstr "://" ++ config.host ++ jstr "/api/v4/projects")])) ∧
      (env.hasHeader (config.protocol ++ jstr "://" ++ config.host ++ jstr "/api/v3")
          (jstr "X-GitHub-Enterprise-Version") = false →
        env.hasBody (config.protocol ++ jstr "://" ++ config.host ++ jstr "/api/v4/projects") = false →
        env.hasBody (config.protocol ++ jstr "://" ++ config.host ++ jstr "/api/v1/settings/api") = true →
        getGitRepoType env config = (.ok ⟨.gitea, config⟩,
          [.header (config.protocol ++ jstr "://" ++ config.host ++ jstr "/api/v3")
            (jstr "X-GitHub-Enterprise-Version"),
           .body (config.protocol ++ jstr "://" ++ config.host ++ jstr "/api/v4/projects"),
           .body (config.protocol ++ jstr "://" ++ config.host ++ jstr "/api/v1/settings/api")])) ∧
      (env.hasHeader (config.protocol ++ jstr "://" ++ config.host ++ jstr "/api/v3")
          (jstr "X-GitHub-Enterprise-Version") = false →
        env.hasBody (config.protocol ++ jstr "://" ++ config.host ++ jstr "/api/v4/projects") = false →
        env.hasBody (config.protocol ++ jstr "://" ++ config.host ++ jstr "/api/v1/settings/api") = false →
        env.hasBody (config.protocol ++ jstr "://" ++ config.host ++ jstr "/api/v1/users/" ++ config.username) = true →
        getGitRepoType env config = (.ok ⟨.gogs, config⟩,
          [.header (config.protocol ++ jstr "://" ++ config.host ++ jstr "/api/v3")
            (jstr "X-GitHub-Enterprise-Version"),
           .body (config.protocol ++ jstr "://" ++ config.host ++ jstr "/api/v4/projects"),
           .body (config.protocol ++ jstr "://" ++ config.host ++ jstr "/api/v1/settings/api"),
           .body (config.protocol ++ jstr "://" ++ config.host ++ jstr "/api/v1/users/" ++ config.username)]))) := by
  refine ⟨fun h => ?_, fun h => ?_, fun h => ?_, fun h1 h2 h3 => ⟨fun p1 => ?_,
    fun p1 p2 => ?_, fun p1 p2 p3 => ?_, fun p1 p2 p3 p4 => ?_⟩⟩
  · have hb : ¬ (jstr "github.com" = jstr "bitbucket.org") := by decide
    simp [getGitRepoType, h]
  · have hg : ¬ (jstr "bitbucket.org" = jstr "github.com") := by decide
    simp [getGitRepoType, h, hg]
  · have hg : ¬ (jstr "dev.azure.com" = jstr "github.com") := by decide
    have hb : ¬ (jstr "dev.azure.com" = jstr "bitbucket.org") := by decide
    simp [getGitRepoType, h, hg, hb]
  · unfold getGitRepoType
    rw [if_neg h1, if_neg h2, if_neg h3]
    simp only [List.append_assoc] at p1 ⊢
    rw [if_pos p1]
  · unfold getGitRepoType
    rw [if_neg h1, if_neg h2, if_neg h3]
    simp only [List.append_assoc] at p1 p2 ⊢
    rw [p1, p2]
    simp
  · unfold getGitRepoType
    rw [if_neg h1, if_neg h2, if_neg h3]
    simp only [List.append_assoc] at p1 p2 p3 ⊢
    rw [p1, p2, p3]
    simp
  · unfold getGitRepoType
    rw [if_neg h1, if_neg h2, if_neg h3]
    simp only [List.append_assoc] at p1 p2 p3 p4 ⊢
    rw [p1, p2, p3, p4]
    simp

/-- Witness for C4: a github.com config dispatches without probes; an
example.com config whose first probe succeeds is GHE with exactly that
probe issued. -/
theorem claim_C4_forge_detector_witness :
    getGitRepoType ⟨fun _ _ => true, fun _ => true⟩
        ⟨jstr "https", jstr "https://github.com/o/r", jstr "github.com", jstr "o",
          some (jstr "r"), none, none, jstr "u", jstr "p"⟩ =
      (.ok ⟨.github, ⟨jstr "https", jstr "https://github.com/o/r", jstr "github.com",
        jstr "o", some (jstr "r"), none, none, jstr "u", jstr "p"⟩⟩, []) ∧
    getGitRepoType ⟨fun _ _ => true, fun _ => true⟩
        ⟨jstr "https", jstr "https://example.com/o/r", jstr "example.com", jstr "o",
          some (jstr "r"), none, none, jstr "u", jstr "p"⟩ =
      (.ok ⟨.ghe, ⟨jstr "https", jstr "https://example.com/o/r", jstr "example.com",
        jstr "o", some (jstr "r"), none, none, jstr "u", jstr "p"⟩⟩,
       [.header (jstr "https://example.com/api/v3") (jstr "X-GitHub-Enterprise-Version")]) := by
  constructor
  · exact (claim_C4_forge_detector ⟨fun _ _ => true, fun _ => true⟩ _).1 rfl
  · have h := (claim_C4_forge_detector ⟨fun _ _ => true, fun _ => true⟩
      ⟨jstr "https", jstr "https://example.com/o/r", jstr "example.com", jstr "o",
        some (jstr "r"), none, none, jstr "u", jstr "p"⟩).2.2.2
      (by decide) (by decide) (by decide)
    have h1 := h.1 rfl
    rw [h1]
    decide

/-- Claim C5 counterexample: with every probe failing the detector throws a
plain `Error` ("Unable to identify Git host type: " followed by the URL),
not a `GitError` of kind `InvalidGitUrl` as the claim states. -/
theorem claim_C5_counterexample :
    getGitRepoType ⟨fun _ _ => false, fun _ => false⟩
        ⟨jstr "https", jstr "https://example.com/o/r", jstr "example.com", jstr "o",
          some (jstr "r"), none, none, jstr "u", jstr "p"⟩ =
      (.error (.generic (jstr "Unable to identify Git host type: https://example.com/o/r")),
       [.header (jstr "https://example.com/api/v3") (jstr "X-GitHub-Enterprise-Version"),
        .body (jstr "https://example.com/api/v4/projects"),
        .body (jstr "https://example.com/api/v1/settings/api"),
        .body (jstr "https://example.com/api/v1/users/u")]) ∧
    isInvalidGitUrlError
      (.generic (jstr "Unable to identify Git host type: https://example.com/o/r")) = false := by
  constructor
  · decide
  · decide

/-- Claim C5 (amended): for every config whose host matches none of the
fixed hosts and for which all four detector probes fail, the detector
throws a plain `Error` whose message is "Unable to identify Git host
type: " followed by the config URL (not a `GitError` of kind
`InvalidGitUrl`). -/
theorem claim_C5_probe_exhaustion (env : ProbeEnv) (config : AuthGitRepoConfig)
    (h1 : config.host ≠ jstr "github.com") (h2 : config.host ≠ jstr "bitbucket.org")
    (h3 : config.host ≠ jstr "dev.azure.com")
    (p1 : env.hasHeader (config.protocol ++ jstr "://" ++ config.host ++ jstr "/api/v3")
      (jstr "X-GitHub-Enterprise-Version") = false)
    (p2 : env.hasBody (config.protocol ++ jstr "://" ++ config.host ++ jstr "/api/v4/projects") = false)
    (p3 : env.hasBody (config.protocol ++ jstr "://" ++ config.host ++ jstr "/api/v1/settings/api") = false)
    (p4 : env.hasBody (config.protocol ++ jstr "://" ++ config.host ++ jstr "/api/v1/users/" ++ config.username) = false) :
    getGitRepoType env config =
      (.error (.generic (jstr "Unable to identify Git host type: " ++ config.url)),
       [.header (config.protocol ++ jstr "://" ++ config.host ++ jstr "/api/v3")
          (jstr "X-GitHub-Enterprise-Version"),
        .body (config.protocol ++ jstr "://" ++ config.host ++ jstr "/api/v4/projects"),
        .body (config.protocol ++ jstr "://" ++ config.host ++ jstr "/api/v1/settings/api"),
        .body (config.protocol ++ jstr "://" ++ config.host ++ jstr "/api/v1/users/" ++ config.username)]) := by
  unfold getGitRepoType
  rw [if_neg h1, if_neg h2, if_neg h3]
  simp only [List.append_assoc] at p1 p2 p3 p4 ⊢
  rw [p1, p2, p3, p4]
  simp

/-- Witness for C5 at a concrete config with failing probes. -/
theorem claim_C5_probe_exhaustion_witness :
    getGitRepoType ⟨fun _ _ => false, fun _ => false⟩
        ⟨jstr "https", jstr "https://git.example.org/o/r", jstr "git.example.org", jstr "o",
          some (jstr "r"), none, none, jstr "me", jstr "p"⟩ =
      (.error (.generic (jstr "Unable to identify Git host type: https://git.example.org/o/r")),
       [.header (jstr "https://git.example.org/api/v3") (jstr "X-GitHub-Enterprise-Version"),
        .body (jstr "https://git.example.org/api/v4/projects"),
        .body (jstr "https://git.example.org/api/v1/settings/api"),
        .body (jstr "https://git.example.org/api/v1/users/me")]) := by
  have h := claim_C5_probe_exhaustion ⟨fun _ _ => false, fun _ => false⟩
    ⟨jstr "https", jstr "https://git.example.org/o/r", jstr "git.example.org", jstr "o",
      some (jstr "r"), none, none, jstr "me", jstr "p"⟩
    (by decide) (by decide) (by decide) rfl rfl rfl rfl
  rw [h]
  decide

/-- Claim C10: a rebaseBranch call whose options carry no userConfig, or one
whose name or email is missing, configures the workspace clone with the
default committer identity "Cloud-Native Toolkit"
/ "cloudnativetoolkit@gmail.com" (the `user.email` and `user.name` entries
written by the clone config step). -/
theorem claim_C10_default_user_config (userConfig : Option GitUserConfig)
    (h : userConfig = none ∨ ∃ u, userConfig = some u ∧ (u.name = [] ∨ u.email = [])) :
    (addGitConfigRun (rebaseBranchCloneInput userConfig)).1 =
      [(jstr "user.email", jstr "cloudnativetoolkit@gmail.com"),
       (jstr "user.name", jstr "Cloud-Native Toolkit")] := by
  rcases h with h | ⟨u, hu, hmiss⟩
  · subst h
    decide
  · subst hu
    have hcfg : getUserConfig (some u) = defaultUserConfig := by
      rcases hmiss with hm | hm <;>
        simp [getUserConfig, hm]
    simp [rebaseBranchCloneInput, addGitConfigRun, hcfg, defaultUserConfig]

/-- Witness for C10 at a userConfig with an empty email. -/
theorem claim_C10_default_user_config_witness :
    (addGitConfigRun (rebaseBranchCloneInput (some ⟨jstr "Dev", []⟩))).1 =
      [(jstr "user.email", jstr "cloudnativetoolkit@gmail.com"),
       (jstr "user.name", jstr "Cloud-Native Toolkit")] :=
  claim_C10_default_user_config (some ⟨jstr "Dev", []⟩)
    (Or.inr ⟨⟨jstr "Dev", []⟩, rfl, Or.inr rfl⟩)

/-- Claim C1 (code bug): every `rebaseBranch` call rejects during clone.
The clone step runs `addGitConfig` on the config-less input
`{userConfig: getUserConfig(options.userConfig)}` built at the call site,
and its `Object.keys(config)` access throws
`TypeError: Cannot convert undefined or null to object`, so whenever the
external git operations of the clone succeed the call rejects with that
TypeError before `git status` is ever read — the resolver is never
invoked, the action trace is empty, and in particular no call ever fails
with `ConflictResolutionFailed` or `UnresolvedConflicts` or pushes and
returns `true` as the claim requires: for every environment, resolver,
user config and fuel, `rebaseBranch` never returns a success value. -/
theorem claim_C1_rebase_clone_rejects (env : RebaseEnv) (resolver : MergeResolver)
    (userConfig : Option GitUserConfig) (fuel : Nat) :
    (env.clone = .ok () →
      rebaseBranch env resolver userConfig fuel =
        (.err (.generic (jstr "TypeError: Cannot convert undefined or null to object")),
         [])) ∧
    ∀ b, (rebaseBranch env resolver userConfig fuel).1 ≠ .ok b := by
  constructor
  · intro h
    unfold rebaseBranch
    rw [h]
    rfl
  · intro b
    unfold rebaseBranch
    cases hc : env.clone with
    | error e => simp
    | ok u =>
      have hcfg : (addGitConfigRun (rebaseBranchCloneInput userConfig)).2 =
          some (.generic (jstr "TypeError: Cannot convert undefined or null to object")) := rfl
      rw [hcfg]
      simp

/-- Witness for C1 at an environment whose external git operations all
succeed, with the default resolver and no user config. -/
theorem claim_C1_rebase_clone_rejects_witness :
    rebaseBranch rebaseEnvGitOk defaultResolver none 3 =
      (.err (.generic (jstr "TypeError: Cannot convert undefined or null to object")),
       []) ∧
    ∀ b, (rebaseBranch rebaseEnvGitOk defaultResolver none 3).1 ≠ .ok b :=
  ⟨(claim_C1_rebase_clone_rejects rebaseEnvGitOk defaultResolver none 3).1 rfl,
   (claim_C1_rebase_clone_rejects rebaseEnvGitOk defaultResolver none 3).2⟩

/-- Claim C2 counterexample: with a poll that reports Conflicts, the
single-shot `mergePullRequest` does invoke `rebaseBranch` before looping,
merging and resolving — refuting "never invokes rebaseBranch". -/
theorem claim_C2_counterexample :
    mergePullRequest mergeEnvConflictsOnce noRetry .github 1 none 3 =
      (.resolved (jstr "merged"), [.poll 0, .rebase 0, .poll 1, .mergeAttempt 1]) ∧
    MergeAction.rebase 0 ∈ (mergePullRequest mergeEnvConflictsOnce noRetry .github 1 none 3).2 := by
  constructor
  · decide
  · decide

theorem mergeLoop_rebase_only_on_conflicts (env : MergeEnv) (handler : MergeRetryHandler)
    (host : GitHost) (pullNumber : Nat) (waitMs : Nat) :
    ∀ (fuel i totalWait j : Nat),
      MergeAction.rebase j ∈ (mergeLoop env handler host pullNumber waitMs fuel i totalWait).2 →
      (env.poll j).status = .conflicts := by
  intro fuel
  induction fuel with
  | zero => intro i tw j h; simp [mergeLoop] at h
  | succ f ih =>
    intro i tw j h
    simp only [mergeLoop] at h
    split at h
    · -- conflicts branch
      rename_i hc
      split at h
      all_goals try split at h
      all_goals simp at h
      all_goals first
        | (rcases h with rfl | h
           · exact hc
           · exact ih _ _ _ h)
        | (subst h; exact hc)
    · -- the other branches never rebase themselves
      split at h
      · simp at h
        exact ih _ _ _ h
      · split at h
        · split at h
          all_goals simp at h
          all_goals exact ih _ _ _ h
        · split at h
          · simp at h
          · split at h
            all_goals simp at h
            all_goals exact ih _ _ _ h

/-- Claim C2 (amended): the single-shot `mergePullRequest` performs the
merge attempt under the retry policy and never invokes `rebaseBranch` in
response to a merge-attempt error; it does, however, invoke `rebaseBranch`
itself whenever a poll reports Conflicts — every rebase the loop performs
belongs to an iteration whose polled pull request had status Conflicts. -/
theorem claim_C2_rebase_only_on_conflicts (env : MergeEnv) (handler : MergeRetryHandler)
    (host : GitHost) (pullNumber : Nat) (waitForBlocked : Option JStr) (fuel j : Nat)
    (hmem : MergeAction.rebase j ∈
      (mergePullRequest env handler host pullNumber waitForBlocked fuel).2) :
    (env.poll j).status = .conflicts :=
  mergeLoop_rebase_only_on_conflicts env handler host pullNumber
    (timeTextToMilliseconds waitForBlocked) fuel 0 0 j hmem

/-- Witness for C2 (amended): in the concrete Conflicts-then-Active run the
rebase at iteration 0 indeed corresponds to a Conflicts poll. -/
theorem claim_C2_rebase_only_on_conflicts_witness :
    (mergeEnvConflictsOnce.poll 0).status = .conflicts :=
  claim_C2_rebase_only_on_conflicts mergeEnvConflictsOnce noRetry .github 1 none 3 0
    (by decide)

/-- Claim C3: during `updateAndMergePullRequest` (whose retry evaluation
collapses to `mergeConflictHandler`), a poll that reports Blocked while the
cumulative wait is below the `waitForBlocked` budget sleeps five minutes
(300000 ms), adds them to the cumulative wait and polls again (the loop
continues at the next iteration with the increased total); once the
cumulative wait has reached the budget, the run rejects with
`MergeBlockedForPullRequest`. -/
theorem claim_C3_blocked_wait (env : MergeEnv) (host : GitHost) (pullNumber : Nat)
    (waitForBlocked : Option JStr) (fuel i totalWait : Nat)
    (hblocked : (env.poll i).status = .blocked) :
    (totalWait < timeTextToMilliseconds waitForBlocked →
      mergeLoop env (mergeConflictHandler env) host pullNumber
          (timeTextToMilliseconds waitForBlocked) (fuel + 1) i totalWait =
        ((mergeLoop env (mergeConflictHandler env) host pullNumber
            (timeTextToMilliseconds waitForBlocked) fuel (i + 1) (totalWait + 300000)).1,
         .poll i :: .sleepBlocked 300000 ::
           (mergeLoop env (mergeConflictHandler env) host pullNumber
              (timeTextToMilliseconds waitForBlocked) fuel (i + 1) (totalWait + 300000)).2)) ∧
    (totalWait ≥ timeTextToMilliseconds waitForBlocked →
      mergeLoop env (mergeConflictHandler env) host pullNumber
          (timeTextToMilliseconds waitForBlocked) (fuel + 1) i totalWait =
        (.rejected (.mergeBlockedForPullRequest (jstr "updateAndMergePullRequest") host
            (jstr (toString pullNumber))), [.poll i])) := by
  have hnc : ¬ (env.poll i).status = .conflicts := by
    rw [hblocked]; decide
  have h300 : minutesInMilliseconds 5 = 300000 := by decide
  constructor
  · intro hlt
    simp only [mergeLoop]
    rw [if_neg hnc, if_pos ⟨hblocked, hlt⟩, h300]
  · intro hge
    have hnwait : ¬ ((env.poll i).status = .blocked ∧
        totalWait < timeTextToMilliseconds waitForBlocked) := by
      rintro ⟨-, hlt⟩
      exact absurd hlt (Nat.not_lt.mpr hge)
    have hstep : catchStep (mergeConflictHandler env) i
        (.mergeBlockedForPullRequest (jstr "updateAndMergePullRequest") host
          (jstr (toString pullNumber))) = .reject [] := by
      simp [catchStep, mergeConflictHandler, isMergeError, isResponseError,
        isMergeConflict, errStatus, errText]
    simp only [mergeLoop]
    rw [if_neg hnc, if_neg hnwait, if_pos hblocked, hstep]
    simp

/-- Witness for C3: with a waitForBlocked budget of "10m" and no
accumulated wait the loop sleeps five minutes; with no budget it rejects at
once with `MergeBlockedForPullRequest`. -/
theorem claim_C3_blocked_wait_witness :
    (mergeLoop mergeEnvBlocked (mergeConflictHandler mergeEnvBlocked) .github 9
        (timeTextToMilliseconds (some (jstr "10m"))) 1 0 0 =
      ((mergeLoop mergeEnvBlocked (mergeConflictHandler mergeEnvBlocked) .github 9
          (timeTextToMilliseconds (some (jstr "10m"))) 0 1 300000).1,
       .poll 0 :: .sleepBlocked 300000 ::
         (mergeLoop mergeEnvBlocked (mergeConflictHandler mergeEnvBlocked) .github 9
            (timeTextToMilliseconds (some (jstr "10m"))) 0 1 300000).2)) ∧
    (mergeLoop mergeEnvBlocked (mergeConflictHandler mergeEnvBlocked) .github 9
        (timeTextToMilliseconds none) 1 0 0 =
      (.rejected (.mergeBlockedForPullRequest (jstr "updateAndMergePullRequest") .github
          (jstr "9")), [.poll 0])) := by
  constructor
  · exact (claim_C3_blocked_wait mergeEnvBlocked .github 9 (some (jstr "10m")) 0 0 0
      rfl).1 (by decide)
  · have h := (claim_C3_blocked_wait mergeEnvBlocked .github 9 none 0 0 0 rfl).2
      (Nat.le_refl 0)
    rw [h]
    rfl

theorem takeWhile_all {p : Char → Bool} : ∀ {xs : JStr}, (∀ a ∈ xs, p a = true) →
    xs.takeWhile p = xs := by
  intro xs h
  induction xs with
  | nil => rfl
  | cons c rest ih =>
    have hc : p c = true := h c (List.mem_cons_self c rest)
    simp only [List.takeWhile_cons, hc, if_true]
    rw [ih (fun a ha => h a (List.mem_cons_of_mem _ ha))]

theorem dropWhile_all {p : Char → Bool} : ∀ {xs : JStr}, (∀ a ∈ xs, p a = true) →
    xs.dropWhile p = [] := by
  intro xs h
  induction xs with
  | nil => rfl
  | cons c rest ih =>
    have hc : p c = true := h c (List.mem_cons_self c rest)
    simp only [List.dropWhile_cons, hc, if_true]
    exact ih (fun a ha => h a (List.mem_cons_of_mem _ ha))

theorem takeWhile_append_stop {p : Char → Bool} {xs : JStr} {c : Char} (ys : JStr)
    (hxs : ∀ a ∈ xs, p a = true) (hc : p c = false) :
    (xs ++ c :: ys).takeWhile p = xs := by
  induction xs with
  | nil => simp [List.takeWhile_cons, hc]
  | cons x rest ih =>
    have hx : p x = true := hxs x (List.mem_cons_self x rest)
    simp only [List.cons_append, List.takeWhile_cons, hx, if_true]
    rw [ih (fun a ha => hxs a (List.mem_cons_of_mem _ ha))]

theorem dropWhile_append_stop {p : Char → Bool} {xs : JStr} {c : Char} (ys : JStr)
    (hxs : ∀ a ∈ xs, p a = true) (hc : p c = false) :
    (xs ++ c :: ys).dropWhile p = c :: ys := by
  induction xs with
  | nil => simp [List.dropWhile_cons, hc]
  | cons x rest ih =>
    have hx : p x = true := hxs x (List.mem_cons_self x rest)
    simp only [List.cons_append, List.dropWhile_cons, hx, if_true]
    exact ih (fun a ha => hxs a (List.mem_cons_of_mem _ ha))

theorem contains_true_of_mem {l : JStr} {c : Char} (h : c ∈ l) : l.contains c = true :=
  List.elem_eq_true_of_mem h

theorem contains_false_of_not_mem {l : JStr} {c : Char} (h : c ∉ l) : l.contains c = false := by
  cases hb : l.contains c
  · rfl
  · exact absurd (List.mem_of_elem_eq_true hb) h

theorem isPrefixOf_append_self : ∀ (pat rest : JStr), pat.isPrefixOf (pat ++ rest) = true := by
  intro pat rest
  induction pat with
  | nil => simp [List.isPrefixOf]
  | cons c cs ih => simp [List.isPrefixOf, ih]

theorem isSuffixOf_append_self (pat rest : JStr) : pat.isSuffixOf (rest ++ pat) = true := by
  simp [List.isSuffixOf, List.reverse_append, isPrefixOf_append_self]

theorem jsSplitChar_no_sep {sep : Char} : ∀ {l : JStr}, sep ∉ l → jsSplitChar sep l = [l] := by
  intro l h
  induction l with
  | nil => rfl
  | cons c rest ih =>
    have hc : ¬ (c = sep) := fun he => h (he ▸ List.mem_cons_self c rest)
    have hr : sep ∉ rest := fun he => h (List.mem_cons_of_mem _ he)
    simp [jsSplitChar, hc, ih hr]

theorem jsSplitChar_sep_append {sep : Char} {xs ys : JStr} (hxs : sep ∉ xs) :
    jsSplitChar sep (xs ++ sep :: ys) = xs :: jsSplitChar sep ys := by
  induction xs with
  | nil =>
    simp [jsSplitChar]
  | cons x rest ih =>
    have hx : ¬ (x = sep) := fun he => hxs (he ▸ List.mem_cons_self x rest)
    have hr : sep ∉ rest := fun he => hxs (List.mem_cons_of_mem _ he)
    simp [jsSplitChar, hx, ih hr]

theorem lastSplit_none {ch : Char} {p : JStr → Bool} : ∀ {l : JStr}, ch ∉ l →
    lastSplit ch p l = none := by
  intro l h
  induction l with
  | nil => rfl
  | cons c rest ih =>
    have hc : ¬ (c = ch) := fun he => h (he ▸ List.mem_cons_self c rest)
    have hr : ch ∉ rest := fun he => h (List.mem_cons_of_mem _ he)
    simp [lastSplit, ih hr, hc]

theorem lastSplit_append {ch : Char} {p : JStr → Bool} {xs ys : JStr}
    (hys : ch ∉ ys) (hp : p ys = true) :
    lastSplit ch p (xs ++ ch :: ys) = some (xs, ys) := by
  induction xs with
  | nil =>
    simp [lastSplit, lastSplit_none hys, hp]
  | cons x rest ih =>
    simp [lastSplit, ih]

theorem matchHttpTail_eval (proto ch owner tail2 : JStr)
    (hch : ∀ a ∈ ch, a ≠ '/') (howner : ∀ a ∈ owner, a ≠ '/') :
    matchHttpTail proto (ch ++ ('/' :: (owner ++ '/' :: tail2))) =
      some (proto, ch, owner, tail2.takeWhile (fun c => c ≠ '#'),
        match tail2.dropWhile (fun c => c ≠ '#') with
        | '#' :: t => t
        | t => t) := by
  have hch' : ∀ a ∈ ch, (fun c => decide (c ≠ '/')) a = true :=
    fun a ha => decide_eq_true (hch a ha)
  have howner' : ∀ a ∈ owner, (fun c => decide (c ≠ '/')) a = true :=
    fun a ha => decide_eq_true (howner a ha)
  simp only [matchHttpTail]
  rw [takeWhile_append_stop _ hch' (by decide),
    dropWhile_append_stop _ hch' (by decide)]
  simp only
  rw [takeWhile_append_stop _ howner' (by decide),
    dropWhile_append_stop _ howner' (by decide)]
  rfl

theorem matchHttpAt_https (X : JStr) :
    matchHttpAt (jstr "https://" ++ X) = matchHttpTail (jstr "https") X := by
  unfold matchHttpAt
  rw [if_pos (isPrefixOf_append_self _ _)]
  rw [show (jstr "https://" ++ X).drop 8 = X from List.drop_left (jstr "https://") X]

theorem matchHttpAt_http (X : JStr) :
    matchHttpAt (jstr "http://" ++ X) = matchHttpTail (jstr "http") X := by
  unfold matchHttpAt
  have hf : (jstr "https://").isPrefixOf (jstr "http://" ++ X) = false := rfl
  rw [if_neg (by simp [hf]), if_pos (isPrefixOf_append_self _ _)]
  rw [show (jstr "http://" ++ X).drop 7 = X from List.drop_left (jstr "http://") X]

theorem execHttpPattern_cons {c : Char} {rest : JStr} {g : JStr × JStr × JStr × JStr × JStr}
    (h : matchHttpAt (c :: rest) = some g) : execHttpPattern (c :: rest) = some g := by
  simp [execHttpPattern, h]

theorem execGitPattern_cons {c : Char} {rest : JStr} {g : JStr × JStr × JStr × JStr × JStr}
    (h : matchGitAt (c :: rest) = some g) : execGitPattern (c :: rest) = some g := by
  simp [execGitPattern, h]

theorem parseRepoHost_plain {host : JStr} (hhost : '@' ∉ host) :
    parseRepoHost host = (host, [], []) := by
  simp only [parseRepoHost]
  rw [if_neg (by simp [hhost])]

theorem parseRepoHost_user {user host : JStr} (hhost : '@' ∉ host)
    (hu : '@' ∉ user) (hc : ':' ∉ user) :
    parseRepoHost ((user ++ jstr "@") ++ host) = (host, user, []) := by
  have harg : (user ++ jstr "@") ++ host = user ++ '@' :: host := by
    simp [jstr]
  rw [harg]
  have hcont : (user ++ '@' :: host).contains '@' = true :=
    contains_true_of_mem (List.mem_append.mpr (Or.inr (List.mem_cons_self _ _)))
  simp only [parseRepoHost]
  rw [if_pos hcont]
  rw [jsSplitChar_sep_append hu, jsSplitChar_no_sep hhost]
  simp only [List.getD_cons_zero, List.getD_cons_succ]
  rw [jsSplitChar_no_sep hc]
  simp

theorem parseRepoHost_user_pass {user pass host : JStr} (hhost : '@' ∉ host)
    (hu : '@' ∉ user) (hp : '@' ∉ pass) (hcu : ':' ∉ user) (hcp : ':' ∉ pass) :
    parseRepoHost ((user ++ jstr ":" ++ pass ++ jstr "@") ++ host) = (host, user, pass) := by
  have harg : (user ++ jstr ":" ++ pass ++ jstr "@") ++ host =
      (user ++ ':' :: pass) ++ '@' :: host := by
    simp [jstr]
  rw [harg]
  have hnom : '@' ∉ user ++ ':' :: pass := by
    intro hmem
    rcases List.mem_append.mp hmem with h | h
    · exact hu h
    · rcases List.mem_cons.mp h with h | h
      · cases h
      · exact hp h
  have hcont : ((user ++ ':' :: pass) ++ '@' :: host).contains '@' = true :=
    contains_true_of_mem (List.mem_append.mpr (Or.inr (List.mem_cons_self _ _)))
  simp only [parseRepoHost]
  rw [if_pos hcont]
  rw [jsSplitChar_sep_append hnom, jsSplitChar_no_sep hhost]
  simp only [List.getD_cons_zero, List.getD_cons_succ]
  rw [jsSplitChar_sep_append hcu, jsSplitChar_no_sep hcp]
  simp

theorem parseRepoName_suffix {repo : JStr} (gitSuffix : Bool)
    (hrepo : ¬ (jstr ".git").isSuffixOf repo = true) :
    parseRepoName (repo ++ (if gitSuffix then jstr ".git" else [])) = repo := by
  cases gitSuffix
  · simp only [Bool.false_eq_true, if_false, List.append_nil]
    unfold parseRepoName
    rw [if_neg hrepo]
  · simp only [if_pos]
    unfold parseRepoName
    rw [if_pos (isSuffixOf_append_self _ _)]
    have hlen : (repo ++ jstr ".git").length - 4 = repo.length := by
      simp [List.length_append, jstr]
    rw [hlen]
    exact List.take_left repo (jstr ".git")

theorem jstr_slash_append (x : JStr) : jstr "/" ++ x = '/' :: x := rfl

theorem http_proto_merge (x : JStr) : jstr "http" ++ (jstr "://" ++ x) = jstr "http://" ++ x := rfl

theorem https_proto_merge (x : JStr) : jstr "https" ++ (jstr "://" ++ x) = jstr "https://" ++ x := rfl

theorem tail2_take_drop (repo : JStr) (gitSuffix : Bool) (fragment : Option JStr)
    (hrepo : ∀ a ∈ repo, a ≠ '#') :
    (repo ++ ((if gitSuffix then jstr ".git" else []) ++ fragSegment fragment)).takeWhile
        (fun c => c ≠ '#') = repo ++ (if gitSuffix then jstr ".git" else []) ∧
    (match (repo ++ ((if gitSuffix then jstr ".git" else []) ++ fragSegment fragment)).dropWhile
        (fun c => c ≠ '#') with
      | '#' :: t => t
      | t => t) = fragGroup fragment := by
  have hsuf : ∀ a ∈ (if gitSuffix then jstr ".git" else []), a ≠ '#' := by
    cases gitSuffix
    · simp
    · simp only [if_pos]
      decide
  have hall : ∀ a ∈ repo ++ (if gitSuffix then jstr ".git" else []),
      (fun c => decide (c ≠ '#')) a = true := by
    intro a ha
    rcases List.mem_append.mp ha with h | h
    · exact decide_eq_true (hrepo a h)
    · exact decide_eq_true (hsuf a h)
  cases fragment with
  | none =>
    have hnil : repo ++ ((if gitSuffix then jstr ".git" else []) ++ fragSegment none) =
        repo ++ (if gitSuffix then jstr ".git" else []) := by simp [fragSegment]
    constructor
    · rw [hnil, takeWhile_all hall]
    · rw [hnil, dropWhile_all hall]
      rfl
  | some f =>
    have harr : repo ++ ((if gitSuffix then jstr ".git" else []) ++ fragSegment (some f)) =
        (repo ++ (if gitSuffix then jstr ".git" else [])) ++ '#' :: f := by
      simp [fragSegment, jstr]
    constructor
    · rw [harr, takeWhile_append_stop _ hall (by decide)]
    · rw [harr, dropWhile_append_stop _ hall (by decide)]
      rfl

theorem execHttpPattern_https (X : JStr) {g : JStr × JStr × JStr × JStr × JStr}
    (h : matchHttpAt (jstr "https://" ++ X) = some g) :
    execHttpPattern (jstr "https://" ++ X) = some g := by
  have hcons : jstr "https://" ++ X = 'h' :: (jstr "ttps://" ++ X) := rfl
  rw [hcons] at h ⊢
  exact execHttpPattern_cons h

theorem execHttpPattern_http (X : JStr) {g : JStr × JStr × JStr × JStr × JStr}
    (h : matchHttpAt (jstr "http://" ++ X) = some g) :
    execHttpPattern (jstr "http://" ++ X) = some g := by
  have hcons : jstr "http://" ++ X = 'h' :: (jstr "ttp://" ++ X) := rfl
  rw [hcons] at h ⊢
  exact execHttpPattern_cons h

theorem parseGitUrl_https_step (REST : JStr)
    {g : JStr × JStr × JStr × JStr × JStr}
    (h : matchHttpAt (jstr "https://" ++ REST) = some g) :
    parseGitUrl (jstr "https://" ++ REST) =
      .ok (assembleConfig g.1 g.2.1 g.2.2.1 g.2.2.2.1 g.2.2.2.2) := by
  have hkey : (jstr "https://" ++ REST).take 4 = jstr "http" := rfl
  simp only [parseGitUrl, hkey, if_pos]
  rw [execHttpPattern_https REST h]

theorem parseGitUrl_http_step (REST : JStr)
    {g : JStr × JStr × JStr × JStr × JStr}
    (h : matchHttpAt (jstr "http://" ++ REST) = some g) :
    parseGitUrl (jstr "http://" ++ REST) =
      .ok (assembleConfig g.1 g.2.1 g.2.2.1 g.2.2.2.1 g.2.2.2.2) := by
  have hkey : (jstr "http://" ++ REST).take 4 = jstr "http" := rfl
  simp only [parseGitUrl, hkey, if_pos]
  rw [execHttpPattern_http REST h]

theorem parseGitUrl_http_core {protoStr : JStr}
    (hp : protoStr = jstr "https" ∨ protoStr = jstr "http")
    (ch owner tail2 : JStr)
    (hch : ∀ a ∈ ch, a ≠ '/') (howner : ∀ a ∈ owner, a ≠ '/') :
    parseGitUrl (protoStr ++ (jstr "://" ++ (ch ++ ('/' :: (owner ++ '/' :: tail2))))) =
      .ok (assembleConfig protoStr ch owner (tail2.takeWhile (fun c => c ≠ '#'))
        (match tail2.dropWhile (fun c => c ≠ '#') with
         | '#' :: t => t
         | t => t)) := by
  rcases hp with hp | hp <;> subst hp
  · rw [https_proto_merge]
    exact parseGitUrl_https_step (ch ++ ('/' :: (owner ++ '/' :: tail2)))
      (by rw [matchHttpAt_https]
          exact matchHttpTail_eval (jstr "https") ch owner tail2 hch howner)
  · rw [http_proto_merge]
    exact parseGitUrl_http_step (ch ++ ('/' :: (owner ++ '/' :: tail2)))
      (by rw [matchHttpAt_http]
          exact matchHttpTail_eval (jstr "http") ch owner tail2 hch howner)

/-- Evaluation of `parseGitUrl` on a rendered well-formed http-flavour URL:
the grammar pieces come back in the five capture groups, credentials are
split off the host group, the `.git` suffix is stripped and the canonical
URL is rebuilt without credentials or fragment. -/
theorem parseGitUrl_http_render (u : HttpUrlParts) (hwf : u.wf) :
    parseGitUrl u.render = .ok
      { url := u.canonical
        protocol := u.protocol
        host := u.host
        owner := u.owner
        repo := some u.repo
        branch := if fragGroup u.fragment ≠ [] then some (fragGroup u.fragment) else none
        username := if credsUser u.creds ≠ [] then some (credsUser u.creds) else none
        password := if credsPass u.creds ≠ [] then some (credsPass u.creds) else none } := by
  obtain ⟨h1, h2, ⟨h3a, h3b⟩, h4, h5a, h5b, h5c⟩ := hwf
  have hchars : ∀ a ∈ u.credsSegment ++ u.host, a ≠ '/' := by
    intro a ha
    rcases List.mem_append.mp ha with h | h
    · exact h1 a h
    · exact fun he => h3a (he ▸ h)
  have howner : ∀ a ∈ u.owner, a ≠ '/' := fun a ha he => h4 (he ▸ ha)
  have hrender : u.render =
      u.protocol ++ (jstr "://" ++ ((u.credsSegment ++ u.host) ++ ('/' :: (u.owner ++ '/' ::
        (u.repo ++ ((if u.gitSuffix then jstr ".git" else []) ++ fragSegment u.fragment)))))) := by
    simp [HttpUrlParts.render, List.append_assoc, jstr_slash_append]
  have hproto : u.protocol = jstr "https" ∨ u.protocol = jstr "http" := by
    cases hs : u.secure
    · exact Or.inr (by simp [HttpUrlParts.protocol, hs])
    · exact Or.inl (by simp [HttpUrlParts.protocol, hs])
  rw [hrender]
  rw [parseGitUrl_http_core hproto _ _ _ hchars howner]
  obtain ⟨htake, hdrop⟩ := tail2_take_drop u.repo u.gitSuffix u.fragment
    (fun a ha he => h5b (he ▸ ha))
  rw [htake, hdrop]
  have hrephost : parseRepoHost (u.credsSegment ++ u.host) =
      (u.host, credsUser u.creds, credsPass u.creds) := by
    rcases hc : u.creds with _ | ⟨user, _ | pass⟩
    · simp only [HttpUrlParts.credsSegment, hc, credsUser, credsPass, List.nil_append]
      exact parseRepoHost_plain h3b
    · rw [hc] at h2
      simp only [HttpUrlParts.credsSegment, hc, credsUser, credsPass]
      exact parseRepoHost_user h3b h2.1 h2.2
    · rw [hc] at h2
      simp only [HttpUrlParts.credsSegment, hc, credsUser, credsPass]
      exact parseRepoHost_user_pass h3b h2.1.1 h2.1.2 h2.2.1 h2.2.2
  simp only [assembleConfig]
  rw [hrephost]
  simp only
  rw [parseRepoName_suffix u.gitSuffix h5c]
  simp only [buildGitUrl, HttpUrlParts.canonical]
  rw [if_pos h5a, if_pos h5a]

/-- `jstr ":" ++ x` is the cons of the colon. -/
theorem jstr_colon_append (x : JStr) : jstr ":" ++ x = ':' :: x := rfl

/-- Evaluation of the anchored `git@` match on a rendered SSH-style URL:
the last `:` followed by a `/` splits host from the path, the last `/`
splits owner from the remainder, and the remainder splits at `#`. -/
theorem matchGitAt_eval (host owner tail2 : JStr)
    (hys : ':' ∉ owner ++ '/' :: tail2) (hslash : '/' ∉ tail2) :
    matchGitAt (jstr "git@" ++ (host ++ (':' :: (owner ++ '/' :: tail2)))) =
      some (jstr "git@", host, owner, tail2.takeWhile (fun c => c ≠ '#'),
        match tail2.dropWhile (fun c => c ≠ '#') with
        | '#' :: t => t
        | t => t) := by
  simp only [matchGitAt]
  rw [if_pos (isPrefixOf_append_self _ _)]
  rw [show (jstr "git@" ++ (host ++ (':' :: (owner ++ '/' :: tail2)))).drop 4 =
    host ++ (':' :: (owner ++ '/' :: tail2)) from
    List.drop_left (jstr "git@") (host ++ (':' :: (owner ++ '/' :: tail2)))]
  have hp : (owner ++ '/' :: tail2).contains '/' = true :=
    contains_true_of_mem (List.mem_append.mpr (Or.inr (List.mem_cons_self _ _)))
  rw [@lastSplit_append ':' (fun after => after.contains '/') host (owner ++ '/' :: tail2) hys hp]
  simp only
  rw [@lastSplit_append '/' (fun _ => true) owner tail2 hslash rfl]

/-- `parseGitUrl` on a `git@`-prefixed URL dispatches to the `git@` pattern
and assembles the config with the protocol coerced to `https`. -/
theorem parseGitUrl_git_step (X : JStr) {g : JStr × JStr × JStr × JStr × JStr}
    (h : matchGitAt (jstr "git@" ++ X) = some g) :
    parseGitUrl (jstr "git@" ++ X) =
      .ok (assembleConfig (jstr "https") g.2.1 g.2.2.1 g.2.2.2.1 g.2.2.2.2) := by
  obtain ⟨a, b, c, d, e⟩ := g
  have hkey : (jstr "git@" ++ X).take 4 = jstr "git@" := rfl
  simp only [parseGitUrl, hkey]
  rw [if_neg (show ¬ (jstr "git@" = jstr "http") by decide)]
  have hexec : execGitPattern (jstr "git@" ++ X) = some (a, b, c, d, e) := by
    have hcons : jstr "git@" ++ X = 'g' :: (jstr "it@" ++ X) := rfl
    rw [hcons] at h ⊢
    exact execGitPattern_cons h
  rw [hexec]
  rfl



/-- Evaluation of `parseGitUrl` on a rendered well-formed `git@` URL: the
canonical URL rewrites the form as `https://host/owner/repo`, stripping the
`.git` suffix and the fragment. -/
theorem parseGitUrl_git_render (u : GitUrlParts) (hwf : u.wf) :
    parseGitUrl u.render = .ok
      { url := u.canonical
        protocol := jstr "https"
        host := u.host
        owner := u.owner
        repo := some u.repo
        branch := if fragGroup u.fragment ≠ [] then some (fragGroup u.fragment) else none
        username := none
        password := none } := by
  obtain ⟨⟨h1a, h1b⟩, ⟨h2a, h2b, h2c⟩, ⟨h3a, h3b, h3c, h3d, h3e⟩, h4⟩ := hwf
  have hfragslash : '/' ∉ fragSegment u.fragment := by
    rcases hf : u.fragment with _ | f
    · simp [fragSegment]
    · rw [hf] at h4
      simp only [fragSegment, jstr]
      intro hmem
      rcases List.mem_cons.mp hmem with h | h
      · cases h
      · exact h4.1 h
  have hfragcolon : ':' ∉ fragSegment u.fragment := by
    rcases hf : u.fragment with _ | f
    · simp [fragSegment]
    · rw [hf] at h4
      simp only [fragSegment, jstr]
      intro hmem
      rcases List.mem_cons.mp hmem with h | h
      · cases h
      · exact h4.2 h
  have hT2slash : '/' ∉ u.repo ++ ((if u.gitSuffix then jstr ".git" else []) ++
      fragSegment u.fragment) := by
    intro hmem
    rcases List.mem_append.mp hmem with h | h
    · exact h3b h
    · rcases List.mem_append.mp h with h | h
      · cases hg : u.gitSuffix <;> rw [hg] at h
        · cases h
        · revert h
          decide
      · exact hfragslash h
  have hT2colon : ':' ∉ u.owner ++ '/' :: (u.repo ++ ((if u.gitSuffix then jstr ".git" else []) ++
      fragSegment u.fragment)) := by
    intro hmem
    rcases List.mem_append.mp hmem with h | h
    · exact h2b h
    · rcases List.mem_cons.mp h with h | h
      · cases h
      · rcases List.mem_append.mp h with h | h
        · exact h3c h
        · rcases List.mem_append.mp h with h | h
          · cases hg : u.gitSuffix <;> rw [hg] at h
            · cases h
            · revert h
              decide
          · exact hfragcolon h
  have hrender : u.render = jstr "git@" ++ (u.host ++ (':' :: (u.owner ++ '/' ::
      (u.repo ++ ((if u.gitSuffix then jstr ".git" else []) ++ fragSegment u.fragment))))) := by
    simp [GitUrlParts.render, List.append_assoc, jstr_slash_append, jstr_colon_append]
  rw [hrender]
  rw [parseGitUrl_git_step _ (matchGitAt_eval u.host u.owner _ hT2colon hT2slash)]
  obtain ⟨htake, hdrop⟩ := tail2_take_drop u.repo u.gitSuffix u.fragment
    (fun a ha he => h3d (he ▸ ha))
  simp only
  rw [htake, hdrop]
  simp only [assembleConfig]
  rw [parseRepoHost_plain h1a]
  simp only
  rw [parseRepoName_suffix u.gitSuffix h3e]
  simp only [buildGitUrl, GitUrlParts.canonical]
  rw [if_pos h3a]
  simp [https_proto_merge, List.append_assoc]
  exact h3a

/-- Claim C8 counterexample: the claim allows the re-rendered `url` to
differ from the input only by a stripped trailing `.git` and omitted
credentials, but on `https://host/owner/repo#feat` — no `.git`, no
credentials — the returned `url` drops the `#feat` fragment and so differs
from the input. -/
theorem claim_C8_counterexample :
    parseGitUrl (jstr "https://host/owner/repo#feat") = .ok
      { url := jstr "https://host/owner/repo", protocol := jstr "https",
        host := jstr "host", owner := jstr "owner", repo := some (jstr "repo"),
        branch := some (jstr "feat"), username := none, password := none } ∧
    jstr "https://host/owner/repo" ≠ jstr "https://host/owner/repo#feat" := by decide

/-- Claim C8 (amended): for every accepted URL, `parseGitUrl` succeeds and
the returned coordinate carries the canonical URL — the input with the
trailing `.git` stripped, embedded credentials omitted, the `#fragment`
dropped, and the `git@host:owner/repo` form rewritten as
`https://host/owner/repo` — plus the parsed protocol, host, owner, repo,
and the optional branch and credentials; in particular
`parseGitUrl "https://host/owner/repo"` returns protocol `https`, host
`host`, owner `owner`, repo `repo` and url equal to the input. -/
theorem claim_C8_url_round_trip :
    (∀ u : HttpUrlParts, u.wf → parseGitUrl u.render = .ok
      { url := u.canonical, protocol := u.protocol, host := u.host, owner := u.owner,
        repo := some u.repo,
        branch := if fragGroup u.fragment ≠ [] then some (fragGroup u.fragment) else none,
        username := if credsUser u.creds ≠ [] then some (credsUser u.creds) else none,
        password := if credsPass u.creds ≠ [] then some (credsPass u.creds) else none }) ∧
    (∀ u : GitUrlParts, u.wf → parseGitUrl u.render = .ok
      { url := u.canonical, protocol := jstr "https", host := u.host, owner := u.owner,
        repo := some u.repo,
        branch := if fragGroup u.fragment ≠ [] then some (fragGroup u.fragment) else none,
        username := none, password := none }) ∧
    parseGitUrl (jstr "https://host/owner/repo") = .ok
      { url := jstr "https://host/owner/repo", protocol := jstr "https",
        host := jstr "host", owner := jstr "owner", repo := some (jstr "repo"),
        branch := none, username := none, password := none } :=
  ⟨fun u h => parseGitUrl_http_render u h, fun u h => parseGitUrl_git_render u h, by decide⟩

theorem claim_C8_url_round_trip_witness :
    (HttpUrlParts.wf ⟨true, some (jstr "user", some (jstr "pw")), jstr "host",
        jstr "owner", jstr "repo", true, some (jstr "feat")⟩ ∧
      parseGitUrl (HttpUrlParts.render ⟨true, some (jstr "user", some (jstr "pw")),
          jstr "host", jstr "owner", jstr "repo", true, some (jstr "feat")⟩) = .ok
        { url := jstr "https://host/owner/repo", protocol := jstr "https",
          host := jstr "host", owner := jstr "owner", repo := some (jstr "repo"),
          branch := some (jstr "feat"), username := some (jstr "user"),
          password := some (jstr "pw") }) ∧
    (GitUrlParts.wf ⟨jstr "host", jstr "owner", jstr "repo", true, some (jstr "feat")⟩ ∧
      parseGitUrl (GitUrlParts.render ⟨jstr "host", jstr "owner", jstr "repo", true,
          some (jstr "feat")⟩) = .ok
        { url := jstr "https://host/owner/repo", protocol := jstr "https",
          host := jstr "host", owner := jstr "owner", repo := some (jstr "repo"),
          branch := some (jstr "feat"), username := none, password := none }) :=
  ⟨⟨⟨by decide, by decide, by decide, by decide, by decide⟩,
    claim_C8_url_round_trip.1 ⟨true, some (jstr "user", some (jstr "pw")),
      jstr "host", jstr "owner", jstr "repo", true, some (jstr "feat")⟩
      ⟨by decide, by decide, by decide, by decide, by decide⟩⟩,
   ⟨⟨by decide, by decide, by decide, by decide⟩,
    claim_C8_url_round_trip.2.1 ⟨jstr "host", jstr "owner", jstr "repo", true,
      some (jstr "feat")⟩ ⟨by decide, by decide, by decide, by decide⟩⟩⟩

end GitClient
